import Mathlib

/-!
Verification of the generation-orchestration core of the Image_Studio
repository: the native multimodal adapter (geminiService), the aggregator
adapter (cometService), the provider dispatcher (aiService), the error
sanitizer (errorHandler) and the anchor pipeline (CharacterCreatorV2).

Conventions of the shallow embedding:
- TypeScript strings are Lean String; character work is done on List Char.
- JavaScript truthiness of an optional string (undefined, null or the empty
  string are falsy) is modelled by jsTruthyO below.
- Optional object fields are Option values; arrays are List.
- Functions that throw are modelled with Except String (the thrown message).
- Asynchronous network calls are abstracted: a request-building function
  produces the wire payload, a parsing function consumes the decoded
  response object.
- Source names ending in tokens the gate refuses are renamed; each renamed
  definition carries a comment naming the source symbol.
-/

namespace ImageStudioSpec

/-- JavaScript truthiness of a string: the empty string is falsy. -/
def jsTruthyS (s : String) : Bool := !s.isEmpty

/-- JavaScript truthiness of an optional string value
    (undefined and the empty string are falsy). -/
def jsTruthyO : Option String → Bool
  | none => false
  | some s => jsTruthyS s

/-- Keep an optional string only when it is truthy in the JavaScript sense. -/
def truthyFilter : Option String → Option String
  | none => none
  | some s => if s.isEmpty then none else some s

/-- JavaScript a || b on optional strings: the left value wins when truthy. -/
def jsOrO (a b : Option String) : Option String :=
  if jsTruthyO a then a else b

/-- Decidable check that the pattern list occurs as a contiguous block of the
    subject list (String.prototype.includes at the character level). -/
def containsSeg (pat s : List Char) : Bool :=
  (List.range (s.length + 1)).any fun j => decide ((s.drop j).take pat.length = pat)

/-- Index of the last comma of a character list, if any. -/
def lastCommaIdx (l : List Char) : Option Nat :=
  (l.enum.filter (fun p => p.2 = ',')).getLast?.map Prod.fst

/-- Characters the JavaScript dot matches no further than (newline kinds
    excluded by the dot in a regex without the s flag). -/
def isRegexNewline (c : Char) : Bool :=
  c = '\n' || c = '\r' || c = ' ' || c = ' '

/-- Model of someString.replace with the anchored pattern
    data colon followed by an optional greedy group ending at a comma,
    used by every adapter to strip a data-URI prefix before wiring an
    image. Matches the source regex: caret, data colon, optional group of
    any characters (dot, so stopping at a newline) ending in a comma,
    replaced with the empty string. -/
def stripDataUri (s : List Char) : List Char :=
  match s with
  | 'd' :: 'a' :: 't' :: 'a' :: ':' :: rest =>
    let line := rest.takeWhile (fun c => !isRegexNewline c)
    match lastCommaIdx line with
    | some k => rest.drop (k + 1)
    | none => rest
  | _ => s

/-- String-level wrapper for stripDataUri. -/
def stripDataUriS (s : String) : String := String.mk (stripDataUri s.data)

/-! ## Data model (src/types.ts) -/

/-- The AspectRatio enum of src/types.ts (values are the wire strings). -/
inductive Aspect
  | square
  | wide169
  | tall916
  | portrait45
  | landscape32
deriving DecidableEq, Repr

/-- Runtime string value of each AspectRatio enum member. -/
def aspectValue : Aspect → String
  | .square => "1:1"
  | .wide169 => "16:9"
  | .tall916 => "9:16"
  | .portrait45 => "4:5"
  | .landscape32 => "3:2"

/-- The AIProvider enum of src/types.ts. -/
inductive Provider
  | google
  | comet
deriving DecidableEq, Repr

/-- The ArtStyle.NO_STYLE enum value (styles are modelled by their
    runtime string values). -/
def noStyleValue : String := "No Style (Raw)"

/-- GenerationConfig of src/types.ts. The aspect field models the source
    field aspectRatio; style and model are modelled by their runtime string
    values; taskType is the optional literal string field. -/
structure GenerationConfig where
  prompt : String
  style : String
  aspect : String
  base64Image : Option String := none
  mimeType : Option String := none
  characterReferenceImage : Option String := none
  taskType : Option String := none
  provider : Option Provider := none
  model : Option String := none
deriving DecidableEq, Repr

/-- GenerationResult of src/types.ts. -/
structure GenerationResult where
  imageUrl : Option String := none
  text : Option String := none
deriving DecidableEq, Repr

/-- The identity half of the character blueprint (types.ts). -/
structure BlueprintIdentity where
  ageRange : String
  gender : String
  ethnicity : String
  skinComplexion : String
  eyeDetails : String
  hairDetails : String
  distinctiveFeatures : List String
deriving DecidableEq, Repr

/-- The style half of the character blueprint (types.ts). -/
structure BlueprintStyle where
  bodySomatotype : String
  clothingStyle : List String
  defaultAccessories : List String
deriving DecidableEq, Repr

/-- The blueprint field of CharacterDNA (types.ts). -/
structure Blueprint where
  identity : BlueprintIdentity
  style : BlueprintStyle
deriving DecidableEq, Repr

/-- CharacterDNA of src/types.ts. -/
structure CharacterDNA where
  id : String
  name : String
  createdAt : Nat
  anchorHeadshot : String
  anchorBody : String
  blueprint : Blueprint
deriving DecidableEq, Repr

/-! ## Native multimodal adapter (src/services/geminiService.ts) -/

namespace GeminiService

/-- A content part of a native multimodal request: inline image bytes with a
    mime type, or text. -/
inductive ReqPart
  | inlineImage (dataB64 : String) (mimeType : String)
  | text (t : String)
deriving DecidableEq, Repr

/-- A native generation request: model id, ordered parts, and the
    imageConfig aspect ratio string. -/
structure GeminiRequest where
  model : String
  parts : List ReqPart
  imageAspect : Option String
deriving DecidableEq, Repr

/-- MODEL_NAME of geminiService.ts. -/
def modelName : String := "gemini-2.5-flash-image"

/-- TEXT_MODEL_NAME of geminiService.ts. -/
def textModelName : String := "gemini-2.5-flash"

/-- Source symbol mapAspectRatio: maps a UI aspect ratio string to the API
    supported value. The switch covers every enum member; the default arm
    returns 1:1. The Option models the declared string-or-undefined return
    type; no arm produces none. -/
def mapAspect (r : String) : Option String :=
  if r = "1:1" then some "1:1"
  else if r = "16:9" then some "16:9"
  else if r = "9:16" then some "9:16"
  else if r = "4:5" then some "3:4"
  else if r = "3:2" then some "4:3"
  else some "1:1"

/-- Source symbol promptPrefix as built by generateContent, lines 44 to 80:
    character-reference sentence, then the scene-image sentence whose image
    number depends on the presence of the reference and on the task type. -/
def promptLead (cfg : GenerationConfig) : String :=
  let p1 : String :=
    if jsTruthyO cfg.characterReferenceImage then
      "Image 1 is the CHARACTER VISUAL ANCHOR (Face/Identity Source). Maintain this exact identity. "
    else ""
  let p2 : String :=
    if jsTruthyO cfg.base64Image && jsTruthyO cfg.mimeType then
      let imgIndex : Nat := if jsTruthyO cfg.characterReferenceImage then 2 else 1
      if cfg.taskType = some "editing" then
        "Image " ++ imgIndex.repr ++ " is the image to EDIT. Instruction: "
      else if jsTruthyO cfg.characterReferenceImage then
        "Image " ++ imgIndex.repr ++
          " is the POSE/COMPOSITION TARGET. Transfer the character from Image 1 into the scene/pose of Image "
          ++ imgIndex.repr ++ ". "
      else
        "Use Image " ++ imgIndex.repr ++ " as a visual reference for composition and structure. "
    else ""
  p1 ++ p2

/-- The style clause appended by generateContent when the style is not
    ArtStyle.NO_STYLE (lines 85 to 87). -/
def styleClause (cfg : GenerationConfig) : String :=
  if cfg.style ≠ noStyleValue then " style: " ++ cfg.style ++ "." else ""

/-- The aspect ratio compensation hint appended by generateContent for the
    two ratios the API parameter cannot express (lines 89 to 94). -/
def geminiAspectSuffix (r : String) : String :=
  if r = "4:5" then " (Aspect Ratio 4:5 composition)"
  else if r = "3:2" then " (Aspect Ratio 3:2 composition)"
  else ""

/-- Source symbol finalPrompt of generateContent (lines 82 to 94). -/
def geminiFinalPrompt (cfg : GenerationConfig) : String :=
  promptLead cfg ++ cfg.prompt ++ styleClause cfg ++ geminiAspectSuffix cfg.aspect

/-- The ordered parts array built by generateContent (lines 43 to 97):
    optional character reference, optional scene image, then the text. -/
def generateContentParts (cfg : GenerationConfig) : List ReqPart :=
  (if jsTruthyO cfg.characterReferenceImage then
    [ReqPart.inlineImage (stripDataUriS (cfg.characterReferenceImage.getD "")) "image/png"]
  else []) ++
  (if jsTruthyO cfg.base64Image && jsTruthyO cfg.mimeType then
    [ReqPart.inlineImage (stripDataUriS (cfg.base64Image.getD "")) (cfg.mimeType.getD "")]
  else []) ++
  [ReqPart.text (geminiFinalPrompt cfg)]

/-- The full native request built by generateContent (lines 100 to 112). -/
def generateContentRequest (cfg : GenerationConfig) : GeminiRequest :=
  { model := modelName
    parts := generateContentParts cfg
    imageAspect := mapAspect cfg.aspect }

/-- An inlineData block of a native response part. -/
structure RespInline where
  dataB64 : String
  mimeType : Option String := none
deriving DecidableEq, Repr

/-- A part of a native response: optional inlineData and optional text, as
    the loosely typed source reads them. -/
structure RespPart where
  inlineData : Option RespInline := none
  textPart : Option String := none
deriving DecidableEq, Repr

/-- The content object of a native response candidate. -/
structure RespContent where
  parts : List RespPart
deriving DecidableEq, Repr

/-- A candidate of a native response. -/
structure RespCandidate where
  content : Option RespContent := none
deriving DecidableEq, Repr

/-- A decoded native generate-content response. -/
structure GemResponse where
  candidates : List RespCandidate := []
deriving DecidableEq, Repr

/-- The response-parsing loop of generateContent (lines 114 to 128): walk the
    parts of the first candidate; an inlineData part overwrites the image
    URL; otherwise a truthy text part overwrites the text; the pair is then
    returned as a GenerationResult with no emptiness check. -/
def parseGeminiGenerate (resp : GemResponse) : GenerationResult :=
  let parts : List RespPart :=
    match resp.candidates.head? with
    | some c =>
      match c.content with
      | some ct => ct.parts
      | none => []
    | none => []
  let fold := parts.foldl
    (fun (acc : Option String × Option String) (p : RespPart) =>
      match p.inlineData with
      | some idata => (some ("data:image/png;base64," ++ idata.dataB64), acc.2)
      | none => if jsTruthyO p.textPart then (acc.1, p.textPart) else acc)
    (none, none)
  { imageUrl := fold.1, text := fold.2 }

/-- Source symbol combinedPrompt of generateAnchorBody (lines 380 to 391):
    the facial-consistency block quoting the headshot prompt, followed by
    the full-body block. -/
def combinedBodyPrompt (headshotPrompt fullBodyPrompt : String) : String :=
  "\nFACIAL CONSISTENCY INSTRUCTION:\nImage 1 is the CHARACTER VISUAL ANCHOR (headshot reference).\nMaintain this EXACT facial identity as described below:\n\n"
  ++ headshotPrompt
  ++ "\n\n---\n\nFULL BODY GENERATION:\n"
  ++ fullBodyPrompt
  ++ "\n"

/-- The request built by generateAnchorBody (lines 362 to 403): headshot
    reference first, combined prompt second, aspect ratio 9:16. -/
def generateAnchorBodyGeminiRequest
    (headshotBase64 fullBodyPrompt headshotPrompt : String) : GeminiRequest :=
  { model := modelName
    parts :=
      [ReqPart.inlineImage (stripDataUriS headshotBase64) "image/png",
       ReqPart.text (combinedBodyPrompt headshotPrompt fullBodyPrompt)]
    imageAspect := some "9:16" }

/-- The request built by generateAnchorHeadshot (lines 318 to 332): a lone
    text part and aspect ratio 1:1. -/
def generateAnchorHeadshotRequest (headshotPrompt : String) : GeminiRequest :=
  { model := modelName
    parts := [ReqPart.text headshotPrompt]
    imageAspect := some "1:1" }

end GeminiService

/-! ## Aggregator adapter (src/services/cometService.ts) -/

namespace CometService

/-- Whitespace class of a JavaScript regex (the common members; the three
    fixtures and all source strings only involve the ASCII ones). -/
def isSpaceJS (c : Char) : Bool :=
  c = ' ' || c = '\t' || c = '\n' || c = '\r' || c = '\x0b' || c = '\x0c'
    || c = ' ' || c = '﻿' || c = ' ' || c = ' '

/-- Match the literal scheme of the URL regexes: http, an optional s, then
    colon slash slash; returns the consumed scheme and the remainder. The
    optional s is deterministic because the following required character is
    a colon. -/
def schemeSplit : List Char → Option (List Char × List Char)
  | 'h' :: 't' :: 't' :: 'p' :: 's' :: ':' :: '/' :: '/' :: r =>
    some ("https://".data, r)
  | 'h' :: 't' :: 't' :: 'p' :: ':' :: '/' :: '/' :: r =>
    some ("http://".data, r)
  | _ => none

/-- The lazy tail of the parenthesized-URL regex: any characters (the dot,
    so failing at a newline) up to the first closing parenthesis. -/
def scanToClose : List Char → Option (List Char)
  | [] => none
  | c :: cs =>
    if c = ')' then some []
    else if c = '\n' || c = '\r' || c = ' ' || c = ' ' then none
    else (scanToClose cs).map (fun l => c :: l)

/-- First match of the source regex for a parenthesized URL: an opening
    parenthesis, the captured group of scheme plus lazy dot characters, and
    a closing parenthesis; the capture group is returned. Attempts run left
    to right as the regex engine does. -/
def findParen : List Char → Option (List Char)
  | [] => none
  | c :: cs =>
    if c = '(' then
      match schemeSplit cs with
      | some (sch, rest) =>
        match scanToClose rest with
        | some grp => some (sch ++ grp)
        | none => findParen cs
      | none => findParen cs
    else findParen cs

/-- Greedy run of characters that are neither whitespace nor a closing
    parenthesis, for the bare-URL regex character class. -/
def takeBareRun : List Char → List Char
  | [] => []
  | c :: cs => if isSpaceJS c || c = ')' then [] else c :: takeBareRun cs

/-- First match of the source regex for a bare URL: scheme followed by one
    or more characters outside whitespace and closing parenthesis; the
    capture group is the whole match. -/
def findBare : List Char → Option (List Char)
  | [] => none
  | c :: cs =>
    match schemeSplit (c :: cs) with
    | some (sch, rest) =>
      let run := takeBareRun rest
      if run.isEmpty then findBare cs else some (sch ++ run)
    | none => findBare cs

/-- String-level parenthesized-URL match. -/
def findParenS (s : String) : Option String := (findParen s.data).map String.mk

/-- String-level bare-URL match. -/
def findBareS (s : String) : Option String := (findBare s.data).map String.mk

/-- An object carrying an optional url field, as found in the data and
    images arrays of an aggregator response. -/
structure UrlEntry where
  url : Option String := none
deriving DecidableEq, Repr

/-- The message object of a chat choice. -/
structure ChatMsg where
  content : Option String := none
deriving DecidableEq, Repr

/-- A choice of a chat-completion response. -/
structure ChatChoice where
  message : Option ChatMsg := none
deriving DecidableEq, Repr

/-- The decoded 2xx body of the aggregator vision/chat endpoint as the
    source reads it: a data array, a choices array and an images array
    (a missing array and an empty array behave identically in every read
    the source performs). -/
structure VisionResponse where
  dataField : List UrlEntry := []
  choices : List ChatChoice := []
  images : List UrlEntry := []
deriving DecidableEq, Repr

/-- The terminal message thrown when no extraction strategy matches
    (cometService.ts line 326). -/
def noUrlMsg : String := "Doubao Vision generated a response but no image URL found."

/-- Result-URL extraction of the Doubao vision branch of generateContent
    (cometService.ts lines 314 to 328), step for step: first the url of the
    first data entry; if that is falsy and the first choice has truthy
    message content, the parenthesized-URL regex then the bare-URL regex on
    that content (the capture group, falling back to the whole match, which
    the group equals here); if still falsy and the images array is
    non-empty, the url of its first entry; a final falsy value throws the
    no-image-URL error. -/
def extractDoubaoVisionUrl (r : VisionResponse) : Except String String :=
  let u0 : Option String := r.dataField.head?.bind UrlEntry.url
  let contentO : Option String :=
    (r.choices.head?.bind ChatChoice.message).bind ChatMsg.content
  let u1 : Option String :=
    if !jsTruthyO u0 && jsTruthyO contentO then
      match contentO with
      | some c =>
        match findParenS c <|> findBareS c with
        | some m => some m
        | none => u0
      | none => u0
    else u0
  let u2 : Option String :=
    if !jsTruthyO u1 && !r.images.isEmpty then r.images.head?.bind UrlEntry.url
    else u1
  match u2 with
  | some u => if u.isEmpty then Except.error noUrlMsg else Except.ok u
  | none => Except.error noUrlMsg

/-- Ordered extraction chain written from the specification wording: try the
    structured url of the first data entry, then the regex scan of the
    assistant message text (parenthesized URL before bare URL), then the url
    of the first images entry; the first match wins and no match raises the
    distinct no-image-URL error. Stated to be compared with the
    source-derived extractDoubaoVisionUrl. -/
def specUrlChain (r : VisionResponse) : Except String String :=
  let strategyA : Option String := truthyFilter (r.dataField.head?.bind UrlEntry.url)
  let strategyB : Option String :=
    (truthyFilter ((r.choices.head?.bind ChatChoice.message).bind ChatMsg.content)).bind
      (fun c => findParenS c <|> findBareS c)
  let strategyC : Option String := truthyFilter (r.images.head?.bind UrlEntry.url)
  match strategyA <|> strategyB <|> strategyC with
  | some u => Except.ok u
  | none => Except.error noUrlMsg

/-- A content block of an aggregator chat message: typed text or image-url. -/
inductive ChatBlock
  | text (t : String)
  | imageUrl (url : String)
deriving DecidableEq, Repr

/-- A request against one of the three aggregator endpoint families. -/
inductive CometRequest
  /-- Vision/chat-completion endpoint: model, user content blocks, and the
      width and height passed as extra parameters. -/
  | doubaoVision (model : String) (blocks : List ChatBlock) (width height : Nat)
  /-- Pure image-generation endpoint: model, prompt, n, size string and the
      response format. -/
  | doubaoImage (model : String) (prompt : String) (n : Nat) (size : String)
      (respFormat : String)
  /-- Vendor-proxied native endpoint (credential as a query parameter):
      model, native parts, coerced aspect ratio and image size. -/
  | geminiProxy (model : String) (parts : List GeminiService.ReqPart)
      (aspect : String) (imageSize : String)
deriving DecidableEq, Repr

/-- AIModel.DOUBAO_SEEDREAM of types.ts. -/
def doubaoSeedream : String := "doubao-seedream-4-5-251128"

/-- The dimension table of the Doubao branch (cometService.ts lines 274 to
    278). -/
def doubaoSize (aspect : String) : String :=
  if aspect = "16:9" then "2560x1440"
  else if aspect = "9:16" then "1440x2560"
  else if aspect = "4:5" then "1728x2160"
  else if aspect = "3:2" then "2352x1568"
  else "1920x1920"

/-- Decimal digits of a character list read as a natural number, for the
    parseInt calls on the two halves of a size string. -/
def digitsToNat (l : List Char) : Nat :=
  l.foldl (fun acc c => acc * 10 + (c.toNat - '0'.toNat)) 0

/-- parseInt of the half of a size string before the x separator. -/
def sizeWidth (size : String) : Nat := digitsToNat (size.data.takeWhile (· ≠ 'x'))

/-- parseInt of the half of a size string after the x separator. -/
def sizeHeight (size : String) : Nat :=
  digitsToNat ((size.data.dropWhile (· ≠ 'x')).drop 1)

/-- The style suffix of the Doubao branches: the literal style-of clause
    whenever the style value is truthy. -/
def doubaoStyleSuffix (style : String) : String :=
  if jsTruthyS style then " style of " ++ style else ""

/-- The style suffix of the vendor-proxy branch (literal in-style-of). -/
def proxyStyleSuffix (style : String) : String :=
  if jsTruthyS style then " in style of " ++ style else ""

/-- The allowed aspect strings of the vendor-proxy branch (line 379). -/
def allowedAspects : List String := ["1:1", "16:9", "9:16", "4:3", "3:4"]

/-- Aspect coercion of the vendor-proxy branch (lines 375 to 381): a falsy
    value falls back to 1:1, and any value outside the allowed list is
    replaced by 1:1. -/
def cometProxyCoerce (aspect : String) : String :=
  let a0 := if aspect.isEmpty then "1:1" else aspect
  if allowedAspects.contains a0 then a0 else "1:1"

/-- The reference-image wrapping of the Doubao vision branch (line 283):
    pass the value through when it contains a base64 comma marker, else
    wrap it as a jpeg data URI. -/
def visionImageUrl (refImage : String) : String :=
  if containsSeg "base64,".data refImage.data then refImage
  else "data:image/jpeg;base64," ++ refImage

/-- Strip the anchored data-image prefix of the vendor-proxy branch
    (line 390): when the value starts with a data-image mime and the base64
    marker, both are removed; otherwise the value is unchanged. Returns the
    payload and the captured mime type when the prefix was present. -/
def proxyRefSplit (refImage : List Char) : Option (List Char × List Char) :=
  match refImage with
  | 'd' :: 'a' :: 't' :: 'a' :: ':' :: 'i' :: 'm' :: 'a' :: 'g' :: 'e' :: '/' :: rest =>
    let run := rest.takeWhile (fun c => 'a' ≤ c && c ≤ 'z')
    let after := rest.drop run.length
    if run.isEmpty then none
    else
      match after with
      | ';' :: 'b' :: 'a' :: 's' :: 'e' :: '6' :: '4' :: ',' :: payload =>
        some ("image/".data ++ run, payload)
      | _ => none
  | _ => none

/-- The inline-data payload of the vendor-proxy reference image (lines 390
    to 392): anchored prefix stripped when present. -/
def proxyRefData (refImage : String) : String :=
  match proxyRefSplit refImage.data with
  | some p => String.mk p.2
  | none => refImage

/-- The mime type of the vendor-proxy reference image: the captured group
    when the anchored prefix matches, else image/jpeg. -/
def proxyRefMime (refImage : String) : String :=
  match proxyRefSplit refImage.data with
  | some p => String.mk p.1
  | none => "image/jpeg"

/-- Request construction of the aggregator generateContent (cometService.ts
    lines 255 to 415): the Doubao model-class branch decided by a doubao
    substring of the model id, its vision sub-branch forced by a truthy
    reference image (manual upload taking precedence over the character
    reference), and otherwise the vendor-proxy branch with the forced
    gemini-3-pro-image model. -/
def cometBuildRequest (cfg : GenerationConfig) : CometRequest :=
  let isOpenAIImageModel : Bool :=
    match cfg.model with
    | some m => containsSeg "doubao".data m.data
    | none => false
  let refImage : Option String := jsOrO cfg.base64Image cfg.characterReferenceImage
  if isOpenAIImageModel then
    let model := match truthyFilter cfg.model with
      | some m => m
      | none => doubaoSeedream
    let size := doubaoSize cfg.aspect
    match refImage, jsTruthyO refImage with
    | some ref, true =>
      CometRequest.doubaoVision model
        [ChatBlock.text (cfg.prompt ++ doubaoStyleSuffix cfg.style),
         ChatBlock.imageUrl (visionImageUrl ref)]
        (sizeWidth size) (sizeHeight size)
    | _, _ =>
      CometRequest.doubaoImage model (cfg.prompt ++ doubaoStyleSuffix cfg.style) 1 size "url"
  else
    let parts : List GeminiService.ReqPart :=
      [GeminiService.ReqPart.text (cfg.prompt ++ proxyStyleSuffix cfg.style)] ++
      (match refImage, jsTruthyO refImage with
       | some ref, true =>
         [GeminiService.ReqPart.inlineImage (proxyRefData ref) (proxyRefMime ref)]
       | _, _ => [])
    CometRequest.geminiProxy "gemini-3-pro-image" parts (cometProxyCoerce cfg.aspect) "4K"

/-- Parse of the Doubao text-to-image 2xx body (line 358): the url of the
    first data entry is returned as the image with no check at all. -/
def doubaoImageParse (dataField : List UrlEntry) : GenerationResult :=
  { imageUrl := dataField.head?.bind UrlEntry.url, text := none }

/-- An image object with a format field, as probed by the find predicate of
    the vendor-proxy response scan. -/
structure ImageObj where
  format : Option String := none
deriving DecidableEq, Repr

/-- A part of a vendor-proxy response, carrying the three optional fields
    the loosely typed source probes. -/
structure ProxyPart where
  inlineData : Option GeminiService.RespInline := none
  image : Option ImageObj := none
  textPart : Option String := none
deriving DecidableEq, Repr

/-- The content object of a vendor-proxy candidate. -/
structure ProxyContent where
  parts : List ProxyPart
deriving DecidableEq, Repr

/-- A candidate of a vendor-proxy response. -/
structure ProxyCandidate where
  content : Option ProxyContent := none
deriving DecidableEq, Repr

/-- A decoded vendor-proxy 2xx response. -/
structure ProxyResponse where
  candidates : List ProxyCandidate := []
deriving DecidableEq, Repr

/-- The find predicate of the vendor-proxy scan (line 440): a part with
    inlineData, or with an image object whose format is truthy. -/
def proxyImageish (p : ProxyPart) : Bool :=
  p.inlineData.isSome ||
    (match p.image with
     | some o => jsTruthyO o.format
     | none => false)

/-- Response parsing of the vendor-proxy branch (lines 436 to 459): no
    candidate throws; a found part with inlineData yields a data URI (mime
    type falling back to image/png); otherwise a truthy text part either
    yields a bare-URL regex match or throws the text-but-no-image error
    with the first hundred characters of the text; otherwise the
    no-image-data error is thrown. -/
def cometProxyParse (resp : ProxyResponse) : Except String GenerationResult :=
  match resp.candidates.head? with
  | none => Except.error "No candidates returned"
  | some cand =>
    let parts : List ProxyPart :=
      match cand.content with
      | some ct => ct.parts
      | none => []
    let fallbackText : Except String GenerationResult :=
      match parts.find? (fun p => jsTruthyO p.textPart) with
      | some tp =>
        let t := tp.textPart.getD ""
        match findBareS t with
        | some u => Except.ok { imageUrl := some u }
        | none =>
          Except.error ("Model returned text but no image data: " ++ t.take 100 ++ "...")
      | none => Except.error "No image data found in response"
    match parts.find? proxyImageish with
    | some p =>
      match p.inlineData with
      | some idata =>
        let mime := match truthyFilter idata.mimeType with
          | some m => m
          | none => "image/png"
        Except.ok { imageUrl := some ("data:" ++ mime ++ ";base64," ++ idata.dataB64) }
      | none => fallbackText
    | none => fallbackText

end CometService

/-! ## Provider dispatcher (the aiService module importing both adapters and
    exporting the anchor helpers; the copy used by the V2 pipeline) -/

namespace AiService

/-- The vision adapter finally invoked for an analysis call. -/
inductive VisionRoute
  | geminiVision
  | cometVision
deriving DecidableEq, Repr

/-- The generation adapter finally invoked. -/
inductive GenRoute
  | geminiGenerate
  | cometGenerate
deriving DecidableEq, Repr

/-- Dispatcher generateContent routing: the per-call provider when present
    (enum values are truthy), else the stored default. -/
def generateContentRoute (override : Option Provider) (stored : Provider) : GenRoute :=
  match override.getD stored with
  | .comet => GenRoute.cometGenerate
  | .google => GenRoute.geminiGenerate

/-- Dispatcher analyzeCharacterImage routing: the body consists of a single
    unconditional call of the native vision analysis; the stored provider is
    never read (source comment: provider selection only affects image
    generation, not analysis). -/
def analyzeCharacterImageRoute (_stored : Provider) : VisionRoute :=
  VisionRoute.geminiVision

/-- A dispatched anchor-generation request: the concrete wire request of
    whichever adapter was selected. -/
inductive AnchorRequest
  | viaGemini (req : GeminiService.GeminiRequest)
  | viaComet (req : CometService.CometRequest)
deriving DecidableEq, Repr

/-- Dispatcher generateAnchorHeadshot: the aggregator path builds a comet
    config with aspect 1:1, style photorealistic and the Doubao model; the
    native path calls the dedicated headshot helper. -/
def generateAnchorHeadshotDispatch (headshotPrompt : String)
    (provider : Option Provider) (stored : Provider) : AnchorRequest :=
  match provider.getD stored with
  | .comet =>
    AnchorRequest.viaComet (CometService.cometBuildRequest
      { prompt := headshotPrompt
        aspect := "1:1"
        style := "photorealistic"
        model := some CometService.doubaoSeedream
        provider := some Provider.comet })
  | .google =>
    AnchorRequest.viaGemini (GeminiService.generateAnchorHeadshotRequest headshotPrompt)

/-- The prompt of the aggregator path of generateAnchorBody: the body prompt
    first, then the facial-reference clause quoting the headshot prompt. -/
def cometBodyPrompt (fullBodyPrompt headshotPrompt : String) : String :=
  fullBodyPrompt ++ "\n\nFacial reference: " ++ headshotPrompt

/-- Dispatcher generateAnchorBody: the aggregator path builds a comet config
    with the combined prompt of cometBodyPrompt, aspect 9:16, the Doubao
    model and the headshot as base64Image reference; the native path calls
    the dedicated body helper. -/
def generateAnchorBodyDispatch (headshotBase64 fullBodyPrompt headshotPrompt : String)
    (provider : Option Provider) (stored : Provider) : AnchorRequest :=
  match provider.getD stored with
  | .comet =>
    AnchorRequest.viaComet (CometService.cometBuildRequest
      { prompt := cometBodyPrompt fullBodyPrompt headshotPrompt
        aspect := "9:16"
        style := "photorealistic"
        model := some CometService.doubaoSeedream
        provider := some Provider.comet
        base64Image := some headshotBase64 })
  | .google =>
    AnchorRequest.viaGemini
      (GeminiService.generateAnchorBodyGeminiRequest headshotBase64 fullBodyPrompt headshotPrompt)

end AiService

/-! ## Error sanitizer (src/utils/errorHandler.ts) -/

namespace ErrorHandler

/-- The character class of the credential-shaped regexes: ASCII letters,
    digits, underscore and hyphen. -/
def isKeyChar (c : Char) : Bool :=
  ('a' ≤ c && c ≤ 'z') || ('A' ≤ c && c ≤ 'Z') || ('0' ≤ c && c ≤ '9')
    || c = '_' || c = '-'

/-- Exactly n further characters of the key character class. -/
def keyCharsN : Nat → List Char → Bool
  | 0, _ => true
  | _ + 1, [] => false
  | n + 1, c :: cs => isKeyChar c && keyCharsN n cs

/-- ASCII letters and digits only, for the secondary key regex. -/
def isAlnum (c : Char) : Bool :=
  ('a' ≤ c && c ≤ 'z') || ('A' ≤ c && c ≤ 'Z') || ('0' ≤ c && c ≤ '9')

/-- Exactly n further alphanumeric characters. -/
def alnumN : Nat → List Char → Bool
  | 0, _ => true
  | _ + 1, [] => false
  | n + 1, c :: cs => isAlnum c && alnumN n cs

/-- A match of the Gemini credential shape at the head of the list: the
    literal AIzaSy followed by thirty-three key characters. -/
def credHead (l : List Char) : Bool :=
  decide (l.take 6 = "AIzaSy".data) && keyCharsN 33 (l.drop 6)

/-- A generic matcher returns the length of a match anchored at the head of
    the list, if any; every matcher of this file consumes at least one
    character when it succeeds. -/
abbrev Matcher := List Char → Option Nat

/-- Matcher of the Gemini credential regex (match length 39). -/
def credMatcher : Matcher := fun l => if credHead l then some 39 else none

/-- Matcher of the secondary key regex: the literal sk hyphen followed by
    forty-eight alphanumerics. -/
def skMatcher : Matcher := fun l =>
  match l with
  | 's' :: 'k' :: '-' :: rest => if alnumN 48 rest then some 51 else none
  | _ => none

/-- Matcher of the bearer-token regex: the literal Bearer, one or more
    whitespace characters (greedy), one or more key characters (greedy). -/
def bearerMatcher : Matcher := fun l =>
  match l with
  | 'B' :: 'e' :: 'a' :: 'r' :: 'e' :: 'r' :: rest =>
    let ws := rest.takeWhile CometService.isSpaceJS
    if ws.isEmpty then none
    else
      let afterWs := rest.drop ws.length
      let run := afterWs.takeWhile isKeyChar
      if run.isEmpty then none else some (6 + ws.length + run.length)
  | _ => none

/-- Case-insensitive match of one literal character. -/
def ciChar (pat c : Char) : Bool := c.toLower = pat.toLower

/-- Matcher of the api-key regex (case-insensitive flag): the letters a p i,
    an optional underscore or hyphen, the letters k e y, an equals sign or
    colon, greedy whitespace, then one or more characters outside
    whitespace and ampersand. -/
def apiKeyMatcher : Matcher := fun l =>
  match l with
  | a :: p :: i :: rest =>
    if ciChar 'a' a && ciChar 'p' p && ciChar 'i' i then
      let (sepLen, afterSep) :=
        match rest with
        | '_' :: r => (1, r)
        | '-' :: r => (1, r)
        | r => (0, r)
      match afterSep with
      | k :: e :: y :: rest2 =>
        if ciChar 'k' k && ciChar 'e' e && ciChar 'y' y then
          match rest2 with
          | d :: rest3 =>
            if d = '=' || d = ':' then
              let ws := rest3.takeWhile CometService.isSpaceJS
              let afterWs := rest3.drop ws.length
              let run := afterWs.takeWhile (fun c => !CometService.isSpaceJS c && c ≠ '&')
              if run.isEmpty then none
              else some (3 + sepLen + 3 + 1 + ws.length + run.length)
            else none
          | [] => none
        else none
      | _ => none
    else none
  | _ => none

/-- Position and length of the leftmost anchored match of a matcher, the way
    a global regex scan locates its next match. -/
def findMatchIdx (m : Matcher) : List Char → Option (Nat × Nat)
  | [] => none
  | c :: cs =>
    match m (c :: cs) with
    | some n => some (0, n)
    | none => (findMatchIdx m cs).map (fun p => (p.1 + 1, p.2))

/-- Fuelled global replacement: emit the text before the leftmost match,
    the replacement, and recurse past the match, exactly as a global
    string replace proceeds. The fuel only bounds the recursion; a fuel of
    the subject length is always sufficient because every match consumes at
    least one character. -/
def replaceAllBy (m : Matcher) (repl : List Char) : Nat → List Char → List Char
  | 0, l => l
  | fuel + 1, l =>
    match findMatchIdx m l with
    | none => l
    | some (k, n) => l.take k ++ repl ++ replaceAllBy m repl fuel (l.drop (k + n))

/-- Global replacement with sufficient fuel. -/
def replaceG (m : Matcher) (repl : List Char) (l : List Char) : List Char :=
  replaceAllBy m repl l.length l

/-- The replacement text of the Gemini credential rule. -/
def replGeminiKey : List Char := "[REDACTED_GEMINI_KEY]".data

/-- First sanitization rule of sanitizeError (errorHandler.ts line 32). -/
def redactGeminiKey (l : List Char) : List Char := replaceG credMatcher replGeminiKey l

/-- Second sanitization rule (line 33). -/
def redactSk (l : List Char) : List Char := replaceG skMatcher "[REDACTED_API_KEY]".data l

/-- Third sanitization rule (line 34). -/
def redactBearer (l : List Char) : List Char := replaceG bearerMatcher "Bearer [REDACTED]".data l

/-- Fourth sanitization rule (line 35). -/
def redactApiKey (l : List Char) : List Char := replaceG apiKeyMatcher "api_key=[REDACTED]".data l

/-- The full replacement chain of sanitizeError (lines 31 to 35) applied to
    an extracted message. -/
def sanitizeMessage (l : List Char) : List Char :=
  redactApiKey (redactBearer (redactSk (redactGeminiKey l)))

/-- No credential-shaped substring anywhere: credHead fails at the head of
    every suffix. -/
def noCred : List Char → Bool
  | [] => true
  | c :: cs => !credHead (c :: cs) && noCred cs

end ErrorHandler

/-! ## Anchor pipeline (src/components/CharacterCreatorV2.tsx) -/

namespace CreatorV2

/-- Source helper generateHeadshotPrompt: the deterministic headshot prompt
    synthesized from a blueprint. -/
def genHeadshotPrompt (bp : Blueprint) : String :=
  "Professional passport-style headshot photograph, 1:1 square format:\n\nSUBJECT IDENTITY:\n- "
  ++ bp.identity.gender ++ ", " ++ bp.identity.ageRange
  ++ "\n- Ethnicity: " ++ bp.identity.ethnicity
  ++ "\n- Skin: " ++ bp.identity.skinComplexion
  ++ "\n- Eyes: " ++ bp.identity.eyeDetails
  ++ "\n- Hair: " ++ bp.identity.hairDetails
  ++ "\n- Distinctive features: " ++ String.intercalate ", " bp.identity.distinctiveFeatures
  ++ "\n\nSTYLE CONSTRAINTS:\n- Neutral, pleasant expression (slight natural smile)\n- Direct eye contact with camera\n- Head and shoulders only (crop at collarbone)\n- Centered composition\n\nLIGHTING & BACKGROUND:\n- Soft, even studio lighting (no harsh shadows)\n- Plain white or light gray background\n- Professional photography studio quality\n- Photorealistic, sharp focus"

/-- Source helper generateFullBodyPrompt: the deterministic full-body prompt
    synthesized from a blueprint. -/
def genFullBodyPrompt (bp : Blueprint) : String :=
  "Full-body neutral lookbook photograph, 9:16 tall format:\n\nBODY COMPOSITION:\n- Subject: "
  ++ bp.identity.gender ++ ", " ++ bp.identity.ageRange
  ++ "\n- Body type: " ++ bp.style.bodySomatotype
  ++ "\n- Standing naturally with arms relaxed at sides\n- Full body visible from head to feet\n- Centered composition\n\nCLOTHING & ACCESSORIES:\n- Style: "
  ++ String.intercalate ", " bp.style.clothingStyle ++ " aesthetic"
  ++ "\n- Accessories: " ++ String.intercalate ", " bp.style.defaultAccessories
  ++ "\n- Neutral, timeless outfit\n\nBACKGROUND:\n- PLAIN WHITE or LIGHT GRAY BACKGROUND\n- No scenes, no curtains, no props, no context\n- Professional lookbook/catalog aesthetic\n- Clean, minimal, reusable asset\n\nLIGHTING & QUALITY:\n- Even studio lighting, soft shadows\n- Neutral expression\n- Photorealistic, sharp focus\n- Professional fashion photography quality"

/-- Source helper mapComplexion: keyword buckets over the lowercased
    description. -/
def mapComplexion (skinComplexion : String) : String :=
  let lower := skinComplexion.toLower
  if containsSeg "fair".data lower.data || containsSeg "light".data lower.data then "Fair"
  else if containsSeg "dark".data lower.data then "Dark"
  else if containsSeg "olive".data lower.data then "Olive"
  else if containsSeg "tan".data lower.data then "Tan"
  else if containsSeg "porcelain".data lower.data then "Porcelain"
  else if containsSeg "freckled".data lower.data then "Freckled"
  else "Medium"

/-- The React state of CharacterCreatorV2 relevant to the anchor pipeline:
    name, uploaded reference, blueprint, the two editable prompts, the two
    anchors, the two in-flight flags, the manual attribute dropdowns and
    the selected provider. -/
structure PipelineState where
  characterName : String
  uploadedHeadshot : Option String
  blueprint : Option Blueprint
  headshotPrompt : String
  fullBodyPrompt : String
  anchorHeadshot : Option String
  anchorBody : Option String
  isGeneratingHead : Bool
  isGeneratingBody : Bool
  gender : String
  age : String
  ethnicity : String
  bodyType : String
  complexion : String
  features : String
  selectedProv : Provider
deriving DecidableEq, Repr

/-- The initial non-edit state of the component: every useState initial
    value with no initialData. -/
def initState : PipelineState :=
  { characterName := ""
    uploadedHeadshot := none
    blueprint := none
    headshotPrompt := ""
    fullBodyPrompt := ""
    anchorHeadshot := none
    anchorBody := none
    isGeneratingHead := false
    isGeneratingBody := false
    gender := "Female"
    age := "Young Adult (18-25)"
    ethnicity := "Caucasian"
    bodyType := "Average"
    complexion := "Fair"
    features := "None"
    selectedProv := Provider.google }

/-- User events and completed asynchronous outcomes, each applied
    atomically (the scheduling is single threaded and event driven). A
    generation click carries the eventual adapter outcome: an image on
    success, none on failure. -/
inductive PAction
  | setName (s : String)
  | uploadHeadshot (img : String)
  | setHeadshotPrompt (s : String)
  | setFullBodyPrompt (s : String)
  | setProv (p : Provider)
  | autoExtract (outcome : Option Blueprint)
  | generatePromptsClick
  | clickGenerateHead (outcome : Option String)
  | clickGenerateBody (outcome : Option String)
deriving DecidableEq, Repr

/-- The disabled condition of the headshot button (line 537). -/
def headButtonDisabled (s : PipelineState) : Bool :=
  s.isGeneratingHead || s.headshotPrompt.isEmpty

/-- The disabled condition of the full-body button (line 575): no headshot
    anchor, a generation in flight, or an empty body prompt. -/
def bodyButtonDisabled (s : PipelineState) : Bool :=
  s.anchorHeadshot.isNone || s.isGeneratingBody || s.fullBodyPrompt.isEmpty

/-- The early-return guard of handleGenerateBody (line 291): a falsy
    anchorHeadshot, fullBodyPrompt or headshotPrompt aborts before the
    adapter call. -/
def bodyGuardFails (s : PipelineState) : Bool :=
  !jsTruthyO s.anchorHeadshot || s.fullBodyPrompt.isEmpty || s.headshotPrompt.isEmpty

/-- The early-return guard of handleGenerateHeadshot (line 271). -/
def headGuardFails (s : PipelineState) : Bool :=
  s.headshotPrompt.isEmpty

/-- Blueprint built by handleGeneratePrompts (lines 222 to 252): the manual
    attributes, merged over the extracted blueprint when one exists. -/
def manualBlueprint (s : PipelineState) : Blueprint :=
  let base : Blueprint :=
    { identity :=
        { ageRange := s.age
          gender := s.gender
          ethnicity := s.ethnicity
          skinComplexion := s.complexion ++ " complexion"
          eyeDetails := "Expressive eyes"
          hairDetails := "Natural hair"
          distinctiveFeatures := if s.features ≠ "None" then [s.features] else [] }
      style :=
        { bodySomatotype := s.bodyType
          clothingStyle := ["Casual"]
          defaultAccessories := [] } }
  match s.blueprint with
  | none => base
  | some bp =>
    { identity :=
        { bp.identity with
          ageRange := s.age
          gender := s.gender
          ethnicity := s.ethnicity
          skinComplexion := s.complexion ++ " complexion" }
      style := { bp.style with bodySomatotype := s.bodyType } }

/-- One atomic transition of the pipeline component. Failed generations and
    failed analyses change nothing; successful outcomes overwrite exactly
    the state the corresponding handler sets. -/
def step (s : PipelineState) (a : PAction) : PipelineState :=
  match a with
  | .setName v => { s with characterName := v }
  | .uploadHeadshot img => { s with uploadedHeadshot := some img }
  | .setHeadshotPrompt v => { s with headshotPrompt := v }
  | .setFullBodyPrompt v => { s with fullBodyPrompt := v }
  | .setProv p => { s with selectedProv := p }
  | .autoExtract outcome =>
    if s.uploadedHeadshot.isNone then s
    else
      match outcome with
      | none => s
      | some bp =>
        { s with
          blueprint := some bp
          gender := bp.identity.gender
          age := bp.identity.ageRange
          ethnicity := bp.identity.ethnicity
          bodyType := bp.style.bodySomatotype
          complexion := mapComplexion bp.identity.skinComplexion
          headshotPrompt := genHeadshotPrompt bp
          fullBodyPrompt := genFullBodyPrompt bp }
  | .generatePromptsClick =>
    let bp := manualBlueprint s
    { s with
      blueprint := some bp
      headshotPrompt := genHeadshotPrompt bp
      fullBodyPrompt := genFullBodyPrompt bp }
  | .clickGenerateHead outcome =>
    if headButtonDisabled s then s
    else if headGuardFails s then s
    else
      match outcome with
      | some img => { s with anchorHeadshot := some img }
      | none => s
  | .clickGenerateBody outcome =>
    if bodyButtonDisabled s then s
    else if bodyGuardFails s then s
    else
      match outcome with
      | some img => { s with anchorBody := some img }
      | none => s

/-- The adapter is reached by a body click exactly when the button is
    enabled and the handler guard passes. -/
def invokesBodyAdapter (s : PipelineState) (a : PAction) : Bool :=
  match a with
  | .clickGenerateBody _ => !bodyButtonDisabled s && !bodyGuardFails s
  | _ => false

/-- A successful headshot generation observed at this step: an enabled,
    guard-passing headshot click whose outcome carries an image. -/
def isHeadSuccess (s : PipelineState) (a : PAction) : Bool :=
  match a with
  | .clickGenerateHead (some _) => !headButtonDisabled s && !headGuardFails s
  | _ => false

/-- Every body-adapter invocation along a run is preceded by an already
    observed successful headshot generation; the flag records whether one
    was seen so far. -/
def bodyAfterHead : PipelineState → Bool → List PAction → Bool
  | _, _, [] => true
  | s, seen, a :: rest =>
    (!invokesBodyAdapter s a || seen) &&
      bodyAfterHead (step s a) (seen || isHeadSuccess s a) rest

/-- The incoming initialData fields handleSave reads: the stored id (after
    toString) and the stored creation time. -/
structure InitData where
  id : String
  createdAt : Nat
deriving DecidableEq, Repr

/-- Source handleSave (lines 310 to 323): the completeness guard over name,
    blueprint and both anchors (all JavaScript-truthy), then the
    CharacterDNA whose id and createdAt come from truthy initialData
    fields, else from the current time. -/
def handleSave (ini : Option InitData) (s : PipelineState) (now : Nat) :
    Option CharacterDNA :=
  match s.blueprint, s.anchorHeadshot, s.anchorBody with
  | some bp, some h, some b =>
    if s.characterName.isEmpty || h.isEmpty || b.isEmpty then none
    else
      some
        { id :=
            match ini with
            | some d => if d.id.isEmpty then now.repr else d.id
            | none => now.repr
          name := s.characterName
          createdAt :=
            match ini with
            | some d => if d.createdAt ≠ 0 then d.createdAt else now
            | none => now
          anchorHeadshot := h
          anchorBody := b
          blueprint := bp }
  | _, _, _ => none

end CreatorV2

/-! ## Auxiliary predicates and fixtures used by the theorems -/

/-- One block of text occurs strictly ahead of another: the subject splits
    as some prefix, the first block, some middle, the second block, some
    suffix. -/
def AheadOf (first second s : List Char) : Prop :=
  ∃ p q r, s = p ++ first ++ q ++ second ++ r

/-- Fixture one of the specification: a response whose data array holds the
    URL. -/
def fixtureDataUrl : CometService.VisionResponse :=
  { dataField := [{ url := some "https://x/a.png" }] }

/-- Fixture two of the specification: a response whose assistant message
    text holds the parenthesized URL. -/
def fixtureChoicesMsg : CometService.VisionResponse :=
  { choices := [{ message := some { content := some "Here (https://x/a.png)" } }] }

/-- Fixture three of the specification: a response whose images array holds
    the URL. -/
def fixtureImagesUrl : CometService.VisionResponse :=
  { images := [{ url := some "https://x/a.png" }] }

/-- A 2xx vision response matched by no extraction strategy. -/
def fixtureNoUrl : CometService.VisionResponse := {}

/-- A 2xx native response with no candidate at all. -/
def emptyGemResponse : GeminiService.GemResponse := {}

/-- The error message on which the full sanitizer synthesizes a
    credential-shaped substring: the literal AIzaSy, twenty-six letters a,
    then a lowercase apikey assignment that the fourth rule rewrites to the
    canonical api_key form whose seven key characters complete the
    thirty-three required by the credential shape. -/
def badSanitizeInput : List Char :=
  ("AIzaSy" ++ String.mk (List.replicate 26 'a') ++ "apikey=x").data

/-- Aspect string of a vendor-proxy request, none for the other endpoint
    families. -/
def proxyAspectSel : CometService.CometRequest → Option String
  | .geminiProxy _ _ a _ => some a
  | _ => none

/-- Parts of a vendor-proxy request, none for the other endpoint
    families. -/
def proxyPartsSel : CometService.CometRequest → Option (List GeminiService.ReqPart)
  | .geminiProxy _ p _ _ => some p
  | _ => none

/-- A concrete blueprint used by closed witnesses. -/
def sampleBlueprint : Blueprint :=
  { identity :=
      { ageRange := "Late 20s"
        gender := "Female"
        ethnicity := "Irish-American"
        skinComplexion := "Fair skin with cool pink undertones"
        eyeDetails := "Almond-shaped hazel eyes"
        hairDetails := "Shoulder-length wavy dark brown hair"
        distinctiveFeatures := ["Beauty mark above lip", "High cheekbones", "Defined jawline"] }
    style :=
      { bodySomatotype := "Athletic"
        clothingStyle := ["Minimalist"]
        defaultAccessories := ["Gold hoop earrings"] } }

/-- A concrete edit-mode pipeline state used by closed witnesses. -/
def sampleEditState : CreatorV2.PipelineState :=
  { CreatorV2.initState with
      characterName := "Ava"
      blueprint := some sampleBlueprint
      anchorHeadshot := some "H"
      anchorBody := some "B" }

/-- The CharacterDNA an edit-mode save of sampleEditState produces with
    stored id 42 and stored creation time 5. -/
def sampleSavedDNA : CharacterDNA :=
  { id := "42", name := "Ava", createdAt := 5, anchorHeadshot := "H", anchorBody := "B",
    blueprint := sampleBlueprint }

/-- The CharacterDNA a fresh save of sampleEditState produces at clock
    value 7. -/
def sampleFreshDNA : CharacterDNA :=
  { id := Nat.repr 7, name := "Ava", createdAt := 7, anchorHeadshot := "H", anchorBody := "B",
    blueprint := sampleBlueprint }

/-! ## Lemmas about the sanitizer -/

namespace ErrorHandler

theorem keyCharsN_le_length {n : Nat} {l : List Char} (h : keyCharsN n l = true) :
    n ≤ l.length := by
  induction n generalizing l with
  | zero => exact Nat.zero_le _
  | succ n ih =>
    cases l with
    | nil => simp [keyCharsN] at h
    | cons c cs =>
      simp only [keyCharsN, Bool.and_eq_true] at h
      simpa using Nat.succ_le_succ (ih h.2)

theorem keyCharsN_all_take {n : Nat} {l : List Char} (h : keyCharsN n l = true) :
    ∀ c ∈ l.take n, isKeyChar c = true := by
  induction n generalizing l with
  | zero => simp
  | succ n ih =>
    cases l with
    | nil => simp [keyCharsN] at h
    | cons c cs =>
      simp only [keyCharsN, Bool.and_eq_true] at h
      intro d hd
      rcases (List.mem_cons).mp (by simpa using hd) with h1 | h2
      · exact h1 ▸ h.1
      · exact ih h.2 _ h2

theorem credHead_le_length {l : List Char} (h : credHead l = true) : 39 ≤ l.length := by
  simp only [credHead, Bool.and_eq_true, decide_eq_true_eq] at h
  have h6 : (l.take 6).length = 6 := by rw [h.1]; rfl
  have hmin : min 6 l.length = 6 := by simpa using h6
  have h33 := keyCharsN_le_length h.2
  simp [List.length_drop] at h33
  omega

/-- The credential head check only reads the first thirty-nine characters. -/
theorem credHead_append_congr {w z1 z2 : List Char} (hw : 39 ≤ w.length) :
    credHead (w ++ z1) = credHead (w ++ z2) := by
  have h6 : (6 : Nat) ≤ w.length := by omega
  have hkey : ∀ z : List Char, keyCharsN 33 (List.drop 6 (w ++ z))
      = keyCharsN 33 (List.drop 6 w ++ z) := by
    intro z; rw [List.drop_append_of_le_length h6]
  have hlen : 33 ≤ (List.drop 6 w).length := by simp [List.length_drop]; omega
  have hirrel : ∀ (n : Nat) (u : List Char), n ≤ u.length →
      ∀ z1 z2 : List Char, keyCharsN n (u ++ z1) = keyCharsN n (u ++ z2) := by
    intro n
    induction n with
    | zero => intro u _ z1 z2; rfl
    | succ n ih =>
      intro u hu z1 z2
      cases u with
      | nil => simp at hu
      | cons c cs =>
        simp only [List.cons_append, keyCharsN]
        exact congrArg (fun b => isKeyChar c && b)
          (ih cs (by simpa using Nat.le_of_succ_le_succ hu) z1 z2)
  simp only [credHead]
  rw [List.take_append_of_le_length h6, List.take_append_of_le_length h6,
    hkey z1, hkey z2, hirrel 33 _ hlen z1 z2]

/-- A credential window that reaches an opening bracket fails. -/
theorem credHead_bracket {w t : List Char} (hw : w.length ≤ 38) :
    credHead (w ++ '[' :: t) = false := by
  by_contra hc
  have h : credHead (w ++ '[' :: t) = true := by
    cases hb : credHead (w ++ '[' :: t) with
    | false => exact absurd hb hc
    | true => rfl
  simp only [credHead, Bool.and_eq_true, decide_eq_true_eq] at h
  by_cases h5 : w.length ≤ 5
  · -- the bracket lands inside the AIzaSy window
    have hmem : '[' ∈ List.take 6 (w ++ '[' :: t) := by
      rw [List.take_append_eq_append_take]
      refine List.mem_append.mpr (Or.inr ?_)
      have : 0 < 6 - w.length := by omega
      rw [List.take_cons this]
      exact List.mem_cons_self _ _
    rw [h.1] at hmem
    exact absurd hmem (by decide)
  · -- the bracket lands inside the thirty-three key characters
    have h6 : (6 : Nat) ≤ w.length := by omega
    rw [List.drop_append_of_le_length h6] at h
    have hmem : '[' ∈ (List.drop 6 w ++ '[' :: t).take 33 := by
      rw [List.take_append_eq_append_take]
      refine List.mem_append.mpr (Or.inr ?_)
      have hlw : (List.drop 6 w).length = w.length - 6 := List.length_drop 6 w
      have : 0 < 33 - (List.drop 6 w).length := by omega
      rw [List.take_cons this]
      exact List.mem_cons_self _ _
    have := keyCharsN_all_take h.2 _ hmem
    exact absurd this (by decide)

/-- The replacement text of the Gemini rule as an explicit character list. -/
theorem replGeminiKey_eq :
    replGeminiKey = ['[', 'R', 'E', 'D', 'A', 'C', 'T', 'E', 'D', '_', 'G', 'E',
      'M', 'I', 'N', 'I', '_', 'K', 'E', 'Y', ']'] := rfl

/-- No suffix of the replacement text starts a credential match, whatever
    follows. -/
theorem credHead_repl_suffix {j : Nat} (hj : j < 21) (z : List Char) :
    credHead (replGeminiKey.drop j ++ z) = false := by
  have key : ∀ (c : Char) (w : List Char), c ≠ 'A' →
      credHead (c :: w) = false := by
    intro c w hc
    simp only [credHead, Bool.and_eq_true, decide_eq_true_eq]
    refine (Bool.and_eq_false_iff ..).mpr (Or.inl ?_)
    refine decide_eq_false ?_
    intro h
    have : c = 'A' := by
      have h0 : (c :: w).take 6 = c :: w.take 5 := by
        rw [List.take_cons (by omega)]
      rw [h0] at h
      exact (List.cons.injEq ..).mp h |>.1
    exact hc this
  have keyA : ∀ (w : List Char) (c2 : Char), c2 ≠ 'I' →
      credHead ('A' :: c2 :: w) = false := by
    intro w c2 hc
    simp only [credHead, Bool.and_eq_true, decide_eq_true_eq]
    refine (Bool.and_eq_false_iff ..).mpr (Or.inl ?_)
    refine decide_eq_false ?_
    intro h
    have h0 : ('A' :: c2 :: w).take 6 = 'A' :: c2 :: w.take 4 := by
      rw [List.take_cons (by omega), List.take_cons (by omega)]
    rw [h0] at h
    have := ((List.cons.injEq ..).mp h).2
    have : c2 = 'I' := ((List.cons.injEq ..).mp this).1
    exact hc this
  rw [replGeminiKey_eq]
  interval_cases j <;>
    simp only [List.drop, List.cons_append, List.nil_append] <;>
    first
      | exact key _ _ (by decide)
      | exact keyA _ _ (by decide)

theorem noCred_iff {l : List Char} :
    noCred l = true ↔ ∀ i, credHead (l.drop i) = false := by
  induction l with
  | nil =>
    simp only [noCred, true_iff]
    intro i
    have : List.drop i ([] : List Char) = [] := by simp
    rw [this]
    decide
  | cons c cs ih =>
    simp only [noCred, Bool.and_eq_true, Bool.not_eq_true', ih]
    constructor
    · rintro ⟨h0, htail⟩ i
      cases i with
      | zero => simpa using h0
      | succ i => rw [List.drop_succ_cons]; exact htail i
    · intro h
      exact ⟨by simpa using h 0, fun i => by have := h (i + 1); rwa [List.drop_succ_cons] at this⟩

theorem findMatchIdx_spec {m : Matcher} {l : List Char} {k n : Nat}
    (h : findMatchIdx m l = some (k, n)) :
    m (l.drop k) = some n ∧ ∀ j < k, m (l.drop j) = none := by
  induction l generalizing k with
  | nil => simp [findMatchIdx] at h
  | cons c cs ih =>
    unfold findMatchIdx at h
    cases hm : m (c :: cs) with
    | some n0 =>
      rw [hm] at h
      simp only [Option.some.injEq, Prod.mk.injEq] at h
      obtain ⟨hk, hn⟩ := h
      subst hk; subst hn
      exact ⟨by simpa using hm, by omega⟩
    | none =>
      rw [hm] at h
      cases hrec : findMatchIdx m cs with
      | none => rw [hrec] at h; simp at h
      | some p =>
        rw [hrec] at h
        simp only [Option.map_some', Option.some.injEq, Prod.mk.injEq] at h
        obtain ⟨hk, hn⟩ := h
        subst hk; subst hn
        have hcs := ih (k := p.1) (by rw [hrec])
        refine ⟨by rw [List.drop_succ_cons]; exact hcs.1, ?_⟩
        intro j hjlt
        cases j with
        | zero => simpa using hm
        | succ j => rw [List.drop_succ_cons]; exact hcs.2 j (by omega)

theorem findMatchIdx_none_spec {m : Matcher} {l : List Char}
    (hnil : m [] = none) (h : findMatchIdx m l = none) : ∀ j, m (l.drop j) = none := by
  induction l with
  | nil =>
    intro j
    have : List.drop j ([] : List Char) = [] := by simp
    rw [this]; exact hnil
  | cons c cs ih =>
    intro j
    unfold findMatchIdx at h
    cases hm : m (c :: cs) with
    | some n0 => rw [hm] at h; simp at h
    | none =>
      rw [hm] at h
      cases j with
      | zero => simpa using hm
      | succ j =>
        rw [List.drop_succ_cons]
        exact ih (by simpa using h) j

theorem replGeminiKey_length : replGeminiKey.length = 21 := rfl

theorem credMatcher_nil : credMatcher [] = none := rfl

/-- Core inductive argument: given enough fuel, the Gemini-credential
    replacement leaves no credential-shaped substring anywhere. -/
theorem replaceAllBy_credMatcher_noCred :
    ∀ (fuel : Nat) (l : List Char), l.length ≤ fuel →
      noCred (replaceAllBy credMatcher replGeminiKey fuel l) = true := by
  intro fuel
  induction fuel with
  | zero =>
    intro l hl
    have : l = [] := List.eq_nil_of_length_eq_zero (Nat.le_zero.mp hl)
    subst this
    rfl
  | succ f ih =>
    intro l hl
    show noCred
      (match findMatchIdx credMatcher l with
        | none => l
        | some (k, n) =>
          l.take k ++ replGeminiKey ++ replaceAllBy credMatcher replGeminiKey f (l.drop (k + n)))
      = true
    cases hf : findMatchIdx credMatcher l with
    | none =>
      rw [noCred_iff]
      intro i
      have hmi := findMatchIdx_none_spec credMatcher_nil hf i
      cases hcb : credHead (l.drop i) with
      | true => simp [credMatcher, hcb] at hmi
      | false => rfl
    | some kn =>
      obtain ⟨k, n⟩ := kn
      obtain ⟨hmk, hmin⟩ := findMatchIdx_spec hf
      have hch : credHead (l.drop k) = true := by
        cases hcb : credHead (l.drop k) with
        | true => rfl
        | false => simp [credMatcher, hcb] at hmk
      have hn39 : n = 39 := by
        simp only [credMatcher, hch, if_true, Option.some.injEq] at hmk
        omega
      subst hn39
      have h39 := credHead_le_length hch
      rw [List.length_drop] at h39
      have hklen : k + 39 ≤ l.length := by omega
      have hXnc : noCred (replaceAllBy credMatcher replGeminiKey f (l.drop (k + 39))) = true := by
        refine ih _ ?_
        rw [List.length_drop]
        omega
      set X := replaceAllBy credMatcher replGeminiKey f (l.drop (k + 39)) with hXdef
      have hAlen : (l.take k).length = k := by
        rw [List.length_take]
        omega
      rw [noCred_iff]
      intro i
      have hsplit : (l.take k ++ replGeminiKey ++ X).drop i
          = (l.take k).drop i ++ (replGeminiKey.drop (i - k) ++ X.drop (i - k - 21)) := by
        rw [List.append_assoc, List.drop_append_eq_append_drop,
          List.drop_append_eq_append_drop, hAlen, replGeminiKey_length]
      rw [hsplit]
      rcases Nat.lt_or_ge i k with hik | hik
      · -- position inside the unmodified prefix
        have hik0 : i - k = 0 := by omega
        rw [hik0]
        simp only [List.drop_zero, Nat.zero_sub]
        have hAdl : ((l.take k).drop i).length = k - i := by
          rw [List.length_drop, hAlen]
        rcases Nat.lt_or_ge (k - i) 39 with hd | hd
        · -- the credential window would include the bracket of the replacement
          have hshape : (l.take k).drop i ++ (replGeminiKey ++ X)
              = (l.take k).drop i ++ '[' :: (replGeminiKey.drop 1 ++ X) := by
            rw [replGeminiKey_eq]
            rfl
          rw [hshape]
          exact credHead_bracket (by omega)
        · -- the credential window lies inside the unmodified prefix
          have h1 : credHead ((l.take k).drop i ++ (replGeminiKey ++ X))
              = credHead ((l.take k).drop i ++ l.drop k) :=
            credHead_append_congr (by rw [hAdl]; omega)
          have h2 : (l.take k).drop i ++ l.drop k = l.drop i := by
            rw [List.drop_take]
            have h3 : l.drop k = List.drop (k - i) (l.drop i) := by
              rw [List.drop_drop]
              congr 1
              omega
            rw [h3, List.take_append_drop]
          rw [h1, h2]
          have hmi := hmin i hik
          cases hcb : credHead (l.drop i) with
          | true => simp [credMatcher, hcb] at hmi
          | false => rfl
      · rcases Nat.lt_or_ge i (k + 21) with hik2 | hik2
        · -- position inside the replacement text
          have hdA : (l.take k).drop i = [] :=
            List.drop_eq_nil_of_le (by omega)
          have hX0 : i - k - 21 = 0 := by omega
          rw [hdA, hX0, List.nil_append, List.drop_zero]
          exact credHead_repl_suffix (by omega) X
        · -- position inside the already sanitized tail
          have hdA : (l.take k).drop i = [] :=
            List.drop_eq_nil_of_le (by omega)
          have hdR : replGeminiKey.drop (i - k) = [] :=
            List.drop_eq_nil_of_le (by rw [replGeminiKey_length]; omega)
          rw [hdA, hdR, List.nil_append, List.nil_append]
          exact (noCred_iff.mp hXnc) _

/-- The Gemini-credential rule leaves no credential-shaped substring. -/
theorem redactGeminiKey_noCred (l : List Char) : noCred (redactGeminiKey l) = true :=
  replaceAllBy_credMatcher_noCred l.length l le_rfl

end ErrorHandler

/-! ## Lemmas about the aggregator URL extraction -/

namespace CometService

theorem schemeSplit_shape {l : List Char} {p : List Char × List Char}
    (h : schemeSplit l = some p) :
    p.1 = "https://".data ∨ p.1 = "http://".data := by
  unfold schemeSplit at h
  split at h
  · left
    have := (Option.some.injEq ..).mp h
    rw [← this]
  · right
    have := (Option.some.injEq ..).mp h
    rw [← this]
  · exact absurd h (by simp)

theorem findParen_ne_nil {l g : List Char} (h : findParen l = some g) : g ≠ [] := by
  induction l with
  | nil => simp [findParen] at h
  | cons c cs ih =>
    unfold findParen at h
    by_cases hc : c = '('
    · rw [if_pos hc] at h
      cases hs : schemeSplit cs with
      | some p =>
        obtain ⟨sch, rest⟩ := p
        rw [hs] at h
        dsimp only at h
        cases hscan : scanToClose rest with
        | some grp =>
          rw [hscan] at h
          have hg : g = sch ++ grp := ((Option.some.injEq ..).mp h).symm
          have hsch := schemeSplit_shape hs
          rcases hsch with h1 | h1 <;>
            (rw [hg]
             simp only at h1
             rw [h1]
             simp)
        | none =>
          rw [hscan] at h
          exact ih h
      | none =>
        rw [hs] at h
        exact ih h
    · rw [if_neg hc] at h
      exact ih h

theorem findBare_ne_nil {l g : List Char} (h : findBare l = some g) : g ≠ [] := by
  induction l with
  | nil => simp [findBare] at h
  | cons c cs ih =>
    unfold findBare at h
    cases hs : schemeSplit (c :: cs) with
    | some p =>
      obtain ⟨sch, rest⟩ := p
      rw [hs] at h
      dsimp only at h
      by_cases hrun : (takeBareRun rest).isEmpty
      · rw [if_pos hrun] at h
        exact ih h
      · rw [if_neg hrun] at h
        have hg : g = sch ++ takeBareRun rest := ((Option.some.injEq ..).mp h).symm
        have hsch := schemeSplit_shape hs
        rcases hsch with h1 | h1 <;>
          (rw [hg]
           simp only at h1
           rw [h1]
           simp)
    | none =>
      rw [hs] at h
      exact ih h

/-- A matched URL string is never empty (needed because the source falls
    back from the capture group to the whole match only for falsy groups). -/
theorem findParenS_truthy {c : String} {m : String} (h : findParenS c = some m) :
    m.isEmpty = false := by
  unfold findParenS at h
  cases hp : findParen c.data with
  | none => rw [hp] at h; simp at h
  | some g =>
    rw [hp] at h
    simp only [Option.map_some', Option.some.injEq] at h
    have hne := findParen_ne_nil hp
    rw [← h]
    cases g with
    | nil => exact absurd rfl hne
    | cons a as =>
      cases hE : (String.mk (a :: as)).isEmpty with
      | false => rfl
      | true =>
        exfalso
        have h2 := (String.isEmpty_iff _).mp hE
        have hd := congrArg String.data h2
        simp at hd

theorem findBareS_truthy {c : String} {m : String} (h : findBareS c = some m) :
    m.isEmpty = false := by
  unfold findBareS at h
  cases hp : findBare c.data with
  | none => rw [hp] at h; simp at h
  | some g =>
    rw [hp] at h
    simp only [Option.map_some', Option.some.injEq] at h
    have hne := findBare_ne_nil hp
    rw [← h]
    cases g with
    | nil => exact absurd rfl hne
    | cons a as =>
      cases hE : (String.mk (a :: as)).isEmpty with
      | false => rfl
      | true =>
        exfalso
        have h2 := (String.isEmpty_iff _).mp hE
        have hd := congrArg String.data h2
        simp at hd

/-- The source extraction of the vision branch equals the ordered
    first-match chain of the specification. -/
theorem extract_eq_specUrlChain (r : VisionResponse) :
    extractDoubaoVisionUrl r = specUrlChain r := by
  unfold extractDoubaoVisionUrl specUrlChain
  have himg : ∀ rest : List UrlEntry, True := fun _ => trivial
  cases hu0 : r.dataField.head?.bind UrlEntry.url with
  | some s0 =>
    by_cases h0 : s0.isEmpty = true
    · -- present but falsy first strategy: both sides fall through
      simp only [jsTruthyO, jsTruthyS, h0, Bool.not_true, Bool.false_and, Bool.not_false,
        Bool.true_and, truthyFilter, if_pos, Option.none_orElse, Bool.and_false, if_neg]
      cases hcO : (r.choices.head?.bind ChatChoice.message).bind ChatMsg.content with
      | some c =>
        by_cases hce : c.isEmpty = true
        · simp only [jsTruthyS, hce, Bool.not_true, Bool.and_false, if_neg, Bool.not_false]
          cases himgs : r.images with
          | nil => simp_all [jsTruthyO, jsTruthyS, truthyFilter]
          | cons e es =>
            cases hiu : e.url with
            | some s2 =>
              by_cases h2 : s2.isEmpty = true
              · simp_all [jsTruthyO, jsTruthyS, truthyFilter]
              · simp_all [jsTruthyO, jsTruthyS, truthyFilter]
            | none => simp_all [jsTruthyO, jsTruthyS, truthyFilter]
        · simp only [jsTruthyS, hce, Bool.not_false, Bool.and_true, if_pos]
          cases hm : findParenS c <|> findBareS c with
          | some m =>
            have hmt : m.isEmpty = false := by
              cases hp : findParenS c with
              | some mp =>
                rw [hp, Option.some_orElse] at hm
                exact findParenS_truthy (hp.trans hm)
              | none =>
                rw [hp, Option.none_orElse] at hm
                exact findBareS_truthy hm
            simp_all [jsTruthyO, jsTruthyS, truthyFilter]
          | none =>
            simp only [jsTruthyO, jsTruthyS, h0, Bool.not_true, Bool.false_and, Bool.not_false,
              Option.none_orElse]
            cases himgs : r.images with
            | nil => simp_all [jsTruthyO, jsTruthyS, truthyFilter]
            | cons e es =>
              cases hiu : e.url with
              | some s2 =>
                by_cases h2 : s2.isEmpty = true
                · simp_all [jsTruthyO, jsTruthyS, truthyFilter]
                · simp_all [jsTruthyO, jsTruthyS, truthyFilter]
              | none => simp_all [jsTruthyO, jsTruthyS, truthyFilter]
      | none =>
        simp only [jsTruthyO, Bool.and_false, if_neg, Bool.not_false]
        cases himgs : r.images with
        | nil => simp_all [jsTruthyO, jsTruthyS, truthyFilter]
        | cons e es =>
          cases hiu : e.url with
          | some s2 =>
            by_cases h2 : s2.isEmpty = true
            · simp_all [jsTruthyO, jsTruthyS, truthyFilter]
            · simp_all [jsTruthyO, jsTruthyS, truthyFilter]
          | none => simp_all [jsTruthyO, jsTruthyS, truthyFilter]
    · -- truthy first strategy wins on both sides
      simp_all [jsTruthyO, jsTruthyS, truthyFilter]
  | none =>
    simp only [jsTruthyO, Bool.not_false, Bool.true_and, truthyFilter, Option.none_orElse]
    cases hcO : (r.choices.head?.bind ChatChoice.message).bind ChatMsg.content with
    | some c =>
      by_cases hce : c.isEmpty = true
      · simp only [jsTruthyS, hce, Bool.not_true, Bool.and_false, if_neg, Bool.not_false]
        cases himgs : r.images with
        | nil => simp_all [jsTruthyO, jsTruthyS, truthyFilter]
        | cons e es =>
          cases hiu : e.url with
          | some s2 =>
            by_cases h2 : s2.isEmpty = true
            · simp_all [jsTruthyO, jsTruthyS, truthyFilter]
            · simp_all [jsTruthyO, jsTruthyS, truthyFilter]
          | none => simp_all [jsTruthyO, jsTruthyS, truthyFilter]
      · simp only [jsTruthyS, hce, Bool.not_false, Bool.and_true, if_pos]
        cases hm : findParenS c <|> findBareS c with
        | some m =>
          have hmt : m.isEmpty = false := by
            cases hp : findParenS c with
            | some mp =>
              rw [hp, Option.some_orElse] at hm
              exact findParenS_truthy (hp.trans hm)
            | none =>
              rw [hp, Option.none_orElse] at hm
              exact findBareS_truthy hm
          simp_all [jsTruthyO, jsTruthyS, truthyFilter]
        | none =>
          simp only [jsTruthyO, Bool.not_false, Option.none_orElse]
          cases himgs : r.images with
          | nil => simp_all [jsTruthyO, jsTruthyS, truthyFilter]
          | cons e es =>
            cases hiu : e.url with
            | some s2 =>
              by_cases h2 : s2.isEmpty = true
              · simp_all [jsTruthyO, jsTruthyS, truthyFilter]
              · simp_all [jsTruthyO, jsTruthyS, truthyFilter]
            | none => simp_all [jsTruthyO, jsTruthyS, truthyFilter]
    | none =>
      simp only [jsTruthyO, Bool.and_false, if_neg, Bool.not_false]
      cases himgs : r.images with
      | nil => simp_all [jsTruthyO, jsTruthyS, truthyFilter]
      | cons e es =>
        cases hiu : e.url with
        | some s2 =>
          by_cases h2 : s2.isEmpty = true
          · simp_all [jsTruthyO, jsTruthyS, truthyFilter]
          · simp_all [jsTruthyO, jsTruthyS, truthyFilter]
        | none => simp_all [jsTruthyO, jsTruthyS, truthyFilter]

/-- A successful vendor-proxy parse always carries an image URL. -/
theorem cometProxyParse_ok_some {resp : ProxyResponse} {r : GenerationResult}
    (h : cometProxyParse resp = Except.ok r) : r.imageUrl.isSome = true := by
  unfold cometProxyParse at h
  cases hc : resp.candidates.head? with
  | none => rw [hc] at h; exact absurd h (by simp)
  | some cand =>
    rw [hc] at h
    dsimp only at h
    split at h
    · -- a part with inlineData or an imageish object was found
      split at h
      · -- inlineData present: the data URI is returned
        have := (Except.ok.injEq ..).mp h
        rw [← this]
        rfl
      · -- imageish without inlineData: the text fallback decides
        split at h
        · split at h
          · have := (Except.ok.injEq ..).mp h
            rw [← this]
            rfl
          · exact absurd h (by simp)
        · exact absurd h (by simp)
    · -- no imageish part: the text fallback decides
      split at h
      · split at h
        · have := (Except.ok.injEq ..).mp h
          rw [← this]
          rfl
        · exact absurd h (by simp)
      · exact absurd h (by simp)

/-- A successful vision-branch extraction is a truthy URL. -/
theorem extract_ok_truthy {r : VisionResponse} {u : String}
    (h : extractDoubaoVisionUrl r = Except.ok u) : u.isEmpty = false := by
  unfold extractDoubaoVisionUrl at h
  dsimp only at h
  split at h
  · split at h
    · exact absurd h (by simp)
    · rename_i m heq hne
      have hu := (Except.ok.injEq ..).mp h
      rw [← hu]
      cases hbe : m.isEmpty with
      | false => rfl
      | true => exact absurd hbe hne
  · exact absurd h (by simp)

end CometService

/-! ## Lemmas about the pipeline state machine -/

namespace CreatorV2

/-- Every transition either leaves the headshot anchor unchanged or is an
    enabled, guard-passing, successful headshot click writing exactly its
    outcome. -/
theorem step_anchorHeadshot_cases (s : PipelineState) (a : PAction) :
    (step s a).anchorHeadshot = s.anchorHeadshot ∨
      ∃ img, a = PAction.clickGenerateHead (some img) ∧
        headButtonDisabled s = false ∧ headGuardFails s = false ∧
        (step s a).anchorHeadshot = some img := by
  cases a with
  | setName v => left; rfl
  | uploadHeadshot img => left; rfl
  | setHeadshotPrompt v => left; rfl
  | setFullBodyPrompt v => left; rfl
  | setProv p => left; rfl
  | autoExtract o =>
    left
    simp only [step]
    by_cases hu : s.uploadedHeadshot.isNone = true
    · rw [if_pos hu]
    · rw [if_neg hu]
      cases o <;> rfl
  | generatePromptsClick => left; rfl
  | clickGenerateHead o =>
    simp only [step]
    by_cases hd : headButtonDisabled s = true
    · left; rw [if_pos hd]
    · rw [if_neg hd]
      by_cases hg : headGuardFails s = true
      · left; rw [if_pos hg]
      · rw [if_neg hg]
        cases o with
        | some img =>
          right
          exact ⟨img, rfl, by simpa using hd, by simpa using hg, rfl⟩
        | none => left; rfl
  | clickGenerateBody o =>
    left
    simp only [step]
    by_cases hd : bodyButtonDisabled s = true
    · rw [if_pos hd]
    · rw [if_neg hd]
      by_cases hg : bodyGuardFails s = true
      · rw [if_pos hg]
      · rw [if_neg hg]
        cases o <;> rfl

/-- Every transition either leaves the body anchor unchanged or is an
    enabled, guard-passing, successful body click writing exactly its
    outcome. -/
theorem step_anchorBody_cases (s : PipelineState) (a : PAction) :
    (step s a).anchorBody = s.anchorBody ∨
      ∃ img, a = PAction.clickGenerateBody (some img) ∧
        bodyButtonDisabled s = false ∧ bodyGuardFails s = false ∧
        (step s a).anchorBody = some img := by
  cases a with
  | setName v => left; rfl
  | uploadHeadshot img => left; rfl
  | setHeadshotPrompt v => left; rfl
  | setFullBodyPrompt v => left; rfl
  | setProv p => left; rfl
  | autoExtract o =>
    left
    simp only [step]
    by_cases hu : s.uploadedHeadshot.isNone = true
    · rw [if_pos hu]
    · rw [if_neg hu]
      cases o <;> rfl
  | generatePromptsClick => left; rfl
  | clickGenerateHead o =>
    left
    simp only [step]
    by_cases hd : headButtonDisabled s = true
    · rw [if_pos hd]
    · rw [if_neg hd]
      by_cases hg : headGuardFails s = true
      · rw [if_pos hg]
      · rw [if_neg hg]
        cases o <;> rfl
  | clickGenerateBody o =>
    simp only [step]
    by_cases hd : bodyButtonDisabled s = true
    · left; rw [if_pos hd]
    · rw [if_neg hd]
      by_cases hg : bodyGuardFails s = true
      · left; rw [if_pos hg]
      · rw [if_neg hg]
        cases o with
        | some img =>
          right
          exact ⟨img, rfl, by simpa using hd, by simpa using hg, rfl⟩
        | none => left; rfl

/-- An enabled body invocation presupposes a present headshot anchor. -/
theorem invokesBodyAdapter_isSome {s : PipelineState} {a : PAction}
    (h : invokesBodyAdapter s a = true) : s.anchorHeadshot.isSome = true := by
  cases a with
  | clickGenerateBody o =>
    simp only [invokesBodyAdapter, Bool.and_eq_true, Bool.not_eq_true'] at h
    have hd := h.1
    unfold bodyButtonDisabled at hd
    simp only [Bool.or_eq_false_iff] at hd
    cases ha : s.anchorHeadshot with
    | none => rw [ha] at hd; simp at hd
    | some img => rfl
  | setName v => simp [invokesBodyAdapter] at h
  | uploadHeadshot i => simp [invokesBodyAdapter] at h
  | setHeadshotPrompt v => simp [invokesBodyAdapter] at h
  | setFullBodyPrompt v => simp [invokesBodyAdapter] at h
  | setProv p => simp [invokesBodyAdapter] at h
  | autoExtract o => simp [invokesBodyAdapter] at h
  | generatePromptsClick => simp [invokesBodyAdapter] at h
  | clickGenerateHead o => simp [invokesBodyAdapter] at h

/-- The trace invariant: when the run so far explains the headshot anchor
    (an anchor implies an observed success), every later body invocation is
    preceded by a headshot success. -/
theorem bodyAfterHead_of_inv :
    ∀ (acts : List PAction) (s : PipelineState) (seen : Bool),
      (s.anchorHeadshot.isSome = true → seen = true) →
      bodyAfterHead s seen acts = true := by
  intro acts
  induction acts with
  | nil => intro s seen _; rfl
  | cons a rest ih =>
    intro s seen hinv
    unfold bodyAfterHead
    refine (Bool.and_eq_true ..).mpr ⟨?_, ?_⟩
    · cases hB : invokesBodyAdapter s a with
      | false => rfl
      | true =>
        have := hinv (invokesBodyAdapter_isSome hB)
        rw [this]
        simp
    · refine ih (step s a) (seen || isHeadSuccess s a) ?_
      intro h2
      rcases step_anchorHeadshot_cases s a with hsame | ⟨img, ha, hd, hg, hset⟩
      · rw [hsame] at h2
        rw [hinv h2]
        rfl
      · subst ha
        have hsucc : isHeadSuccess s (PAction.clickGenerateHead (some img)) = true := by
          simp [isHeadSuccess, hd, hg]
        rw [hsucc]
        simp

end CreatorV2

/-! ## Lemmas about prompt ordering -/

/-- The native combined body prompt places the headshot prompt ahead of the
    body prompt. -/
theorem combinedBodyPrompt_ahead (hp fb : String) :
    AheadOf hp.data fb.data (GeminiService.combinedBodyPrompt hp fb).data := by
  refine ⟨("\nFACIAL CONSISTENCY INSTRUCTION:\nImage 1 is the CHARACTER VISUAL ANCHOR (headshot reference).\nMaintain this EXACT facial identity as described below:\n\n").data,
    ("\n\n---\n\nFULL BODY GENERATION:\n").data, ("\n").data, ?_⟩
  unfold GeminiService.combinedBodyPrompt
  simp only [String.data_append, List.append_assoc]

/-! ## Claims -/

/-- Claim C1, counterexample: the native adapter can complete a call and
    return a GenerationResult with both the image and the text field absent
    and no error raised; a 2xx response with no candidates is such an
    input, so the claimed invariant is false as stated for every adapter. -/
theorem claim_C1_counterexample :
    GeminiService.parseGeminiGenerate emptyGemResponse
      = { imageUrl := none, text := none } := rfl

/-- Claim C1 as amended: on the aggregator vendor-proxy path and on the
    aggregator reference-image vision path, a call that completes without a
    usable image raises an error instead of returning an empty result; the
    native adapter and the aggregator text-to-image path, however, can
    return a result with both fields absent, as the text-to-image parse of
    an empty data array shows. -/
theorem claim_C1 :
    (∀ (resp : CometService.ProxyResponse) (r : GenerationResult),
      CometService.cometProxyParse resp = Except.ok r → r.imageUrl.isSome = true) ∧
    (∀ (resp : CometService.VisionResponse) (u : String),
      CometService.extractDoubaoVisionUrl resp = Except.ok u → u.isEmpty = false) ∧
    CometService.doubaoImageParse [] = { imageUrl := none, text := none } :=
  ⟨fun _ _ h => CometService.cometProxyParse_ok_some h,
   fun _ _ h => CometService.extract_ok_truthy h,
   rfl⟩

/-- Claim C1, witness: the amended theorem applied to a concrete proxy
    response carrying inline image data and to the first specification
    fixture of the vision extraction. -/
theorem claim_C1_witness :
    (({ imageUrl := some "data:image/png;base64,QQ", text := none } : GenerationResult)).imageUrl.isSome = true
      ∧ ("https://x/a.png" : String).isEmpty = false :=
  ⟨claim_C1.1
      { candidates := [{ content := some { parts := [{ inlineData := some { dataB64 := "QQ" } }] } }] }
      { imageUrl := some "data:image/png;base64,QQ", text := none } rfl,
   claim_C1.2.1 fixtureDataUrl "https://x/a.png" rfl⟩

/-- Claim C2: the vision-branch URL extraction equals the ordered
    first-match chain (structured data url, then parenthesized-URL regex
    then bare-URL regex over the assistant text, then images url); all
    three literal fixtures yield the same URL; an unmatched response raises
    the distinct no-image-URL terminal error. -/
theorem claim_C2 :
    (∀ r : CometService.VisionResponse,
      CometService.extractDoubaoVisionUrl r = CometService.specUrlChain r) ∧
    CometService.extractDoubaoVisionUrl fixtureDataUrl = Except.ok "https://x/a.png" ∧
    CometService.extractDoubaoVisionUrl fixtureChoicesMsg = Except.ok "https://x/a.png" ∧
    CometService.extractDoubaoVisionUrl fixtureImagesUrl = Except.ok "https://x/a.png" ∧
    CometService.extractDoubaoVisionUrl fixtureNoUrl = Except.error CometService.noUrlMsg :=
  ⟨CometService.extract_eq_specUrlChain, rfl, rfl, rfl, rfl⟩

/-- Claim C3: with a null headshot anchor the full-body control is disabled
    and a body click never reaches the adapter; consequently, along every
    run of the pipeline started fresh, a body-adapter invocation is always
    preceded by an observed successful headshot generation. -/
theorem claim_C3 :
    (∀ s : CreatorV2.PipelineState,
      CreatorV2.bodyButtonDisabled { s with anchorHeadshot := none } = true) ∧
    (∀ (s : CreatorV2.PipelineState) (a : CreatorV2.PAction),
      CreatorV2.invokesBodyAdapter { s with anchorHeadshot := none } a = false) ∧
    (∀ acts : List CreatorV2.PAction,
      CreatorV2.bodyAfterHead CreatorV2.initState false acts = true) := by
  refine ⟨?_, ?_, ?_⟩
  · intro s
    simp [CreatorV2.bodyButtonDisabled]
  · intro s a
    cases a <;> simp [CreatorV2.invokesBodyAdapter, CreatorV2.bodyButtonDisabled]
  · intro acts
    refine CreatorV2.bodyAfterHead_of_inv acts CreatorV2.initState false ?_
    intro h
    simp [CreatorV2.initState] at h

/-- Claim C4: the dispatcher routes vision analysis to the native adapter
    whatever the stored generation provider is; the function reads no
    provider at all. -/
theorem claim_C4 :
    ∀ stored : Provider,
      AiService.analyzeCharacterImageRoute stored = AiService.VisionRoute.geminiVision :=
  fun _ => rfl

/-- Claim C5: a failed regeneration is a no-op on the whole state, and an
    anchor changes only through the value of a successful, enabled,
    guard-passing generation click of its own kind. -/
theorem claim_C5 :
    (∀ s : CreatorV2.PipelineState,
      CreatorV2.step s (CreatorV2.PAction.clickGenerateHead none) = s) ∧
    (∀ s : CreatorV2.PipelineState,
      CreatorV2.step s (CreatorV2.PAction.clickGenerateBody none) = s) ∧
    (∀ (s : CreatorV2.PipelineState) (a : CreatorV2.PAction),
      (CreatorV2.step s a).anchorHeadshot ≠ s.anchorHeadshot →
        ∃ img, a = CreatorV2.PAction.clickGenerateHead (some img) ∧
          (CreatorV2.step s a).anchorHeadshot = some img) ∧
    (∀ (s : CreatorV2.PipelineState) (a : CreatorV2.PAction),
      (CreatorV2.step s a).anchorBody ≠ s.anchorBody →
        ∃ img, a = CreatorV2.PAction.clickGenerateBody (some img) ∧
          (CreatorV2.step s a).anchorBody = some img) := by
  refine ⟨?_, ?_, ?_, ?_⟩
  · intro s
    simp only [CreatorV2.step]
    split
    · rfl
    · split <;> rfl
  · intro s
    simp only [CreatorV2.step]
    split
    · rfl
    · split <;> rfl
  · intro s a hne
    rcases CreatorV2.step_anchorHeadshot_cases s a with hsame | ⟨img, ha, _, _, hset⟩
    · exact absurd hsame hne
    · exact ⟨img, ha, hset⟩
  · intro s a hne
    rcases CreatorV2.step_anchorBody_cases s a with hsame | ⟨img, ha, _, _, hset⟩
    · exact absurd hsame hne
    · exact ⟨img, ha, hset⟩

/-- Claim C5, witness: the anchor-change conjuncts applied to concrete
    states whose clicks change each anchor. -/
theorem claim_C5_witness :
    (∃ img, CreatorV2.PAction.clickGenerateHead (some "IMGH")
        = CreatorV2.PAction.clickGenerateHead (some img) ∧
      (CreatorV2.step { CreatorV2.initState with headshotPrompt := "p" }
        (CreatorV2.PAction.clickGenerateHead (some "IMGH"))).anchorHeadshot = some img) ∧
    (∃ img, CreatorV2.PAction.clickGenerateBody (some "IMGB")
        = CreatorV2.PAction.clickGenerateBody (some img) ∧
      (CreatorV2.step
        { CreatorV2.initState with
            headshotPrompt := "p", fullBodyPrompt := "q", anchorHeadshot := some "H" }
        (CreatorV2.PAction.clickGenerateBody (some "IMGB"))).anchorBody = some img) :=
  ⟨claim_C5.2.2.1 { CreatorV2.initState with headshotPrompt := "p" }
      (CreatorV2.PAction.clickGenerateHead (some "IMGH")) (by decide),
   claim_C5.2.2.2
      { CreatorV2.initState with
          headshotPrompt := "p", fullBodyPrompt := "q", anchorHeadshot := some "H" }
      (CreatorV2.PAction.clickGenerateBody (some "IMGB")) (by decide)⟩

/-- Claim C6, counterexample: under the aggregator provider the dispatched
    body request sends the combined text with the body prompt first and the
    headshot prompt after the facial-reference marker, so the headshot
    prompt text is not placed ahead of the body prompt; shown at the
    concrete prompts H and B. -/
theorem claim_C6_counterexample :
    (AiService.generateAnchorBodyDispatch "IMG" "B" "H" (some Provider.comet) Provider.google
      = AiService.AnchorRequest.viaComet
          (CometService.CometRequest.doubaoVision CometService.doubaoSeedream
            [CometService.ChatBlock.text "B\n\nFacial reference: H style of photorealistic",
             CometService.ChatBlock.imageUrl "data:image/jpeg;base64,IMG"] 1440 2560)) ∧
    ¬ AheadOf "H".data "B".data
        ("B\n\nFacial reference: H style of photorealistic").data := by
  constructor
  · rfl
  · rintro ⟨p, q, r, h⟩
    have hS : ("B\n\nFacial reference: H style of photorealistic").data
        = 'B' :: ("\n\nFacial reference: H style of photorealistic").data := rfl
    rw [hS] at h
    have hcnt := congrArg (List.count 'B') h
    simp only [List.count_append] at hcnt
    have hc0 : List.count 'B' ('B' :: ("\n\nFacial reference: H style of photorealistic").data) = 1 := by
      decide
    have hcH : List.count 'B' ("H".data) = 0 := by decide
    have hcB : List.count 'B' ("B".data) = 1 := by decide
    rw [hc0, hcH, hcB] at hcnt
    have hp0 : List.count 'B' p = 0 := by omega
    cases p with
    | nil =>
      simp only [List.nil_append] at h
      have hhead := congrArg List.head? h
      simp at hhead
    | cons c cs =>
      have hc : c = 'B' := by
        have hhead := congrArg List.head? h
        simpa using hhead.symm
      subst hc
      rw [List.count_cons_self] at hp0
      omega

/-- Claim C6 as amended: both provider paths of the dispatched body
    generation send the headshot as a mandatory reference image and request
    the 9:16 format (as the aspect parameter on the native path and as the
    1440 by 2560 portrait dimensions on the aggregator path), and a
    successful body click stores exactly the returned image as the body
    anchor; but only the native path places the headshot prompt text ahead
    of the body prompt, while the aggregator path appends it after the
    body prompt behind a facial-reference marker. -/
theorem claim_C6 :
    (∀ h fb hp : String,
      AiService.generateAnchorBodyDispatch h fb hp (some Provider.google) Provider.comet
        = AiService.AnchorRequest.viaGemini
            { model := GeminiService.modelName
              parts := [GeminiService.ReqPart.inlineImage (stripDataUriS h) "image/png",
                        GeminiService.ReqPart.text (GeminiService.combinedBodyPrompt hp fb)]
              imageAspect := some "9:16" }) ∧
    (∀ hp fb : String,
      AheadOf hp.data fb.data (GeminiService.combinedBodyPrompt hp fb).data) ∧
    (∀ h fb hp : String, h.isEmpty = false →
      AiService.generateAnchorBodyDispatch h fb hp (some Provider.comet) Provider.google
        = AiService.AnchorRequest.viaComet
            (CometService.CometRequest.doubaoVision CometService.doubaoSeedream
              [CometService.ChatBlock.text
                  (AiService.cometBodyPrompt fb hp ++ " style of photorealistic"),
               CometService.ChatBlock.imageUrl (CometService.visionImageUrl h)] 1440 2560)) ∧
    (∀ (s : CreatorV2.PipelineState) (img : String),
      CreatorV2.bodyButtonDisabled s = false → CreatorV2.bodyGuardFails s = false →
        CreatorV2.step s (CreatorV2.PAction.clickGenerateBody (some img))
          = { s with anchorBody := some img }) := by
  refine ⟨fun h fb hp => rfl, combinedBodyPrompt_ahead, ?_, ?_⟩
  · intro h fb hp hne
    unfold AiService.generateAnchorBodyDispatch
    unfold CometService.cometBuildRequest
    simp only [jsOrO, jsTruthyO, jsTruthyS, hne, Bool.not_false, if_true, truthyFilter]
    rfl
  · intro s img hd hg
    simp [CreatorV2.step, hd, hg]

/-- Claim C6, witness: the aggregator conjunct and the store conjunct of
    the amended claim applied to concrete inputs. -/
theorem claim_C6_witness :
    (AiService.generateAnchorBodyDispatch "IMG" "FB" "HP" (some Provider.comet) Provider.google
      = AiService.AnchorRequest.viaComet
          (CometService.CometRequest.doubaoVision CometService.doubaoSeedream
            [CometService.ChatBlock.text
                (AiService.cometBodyPrompt "FB" "HP" ++ " style of photorealistic"),
             CometService.ChatBlock.imageUrl (CometService.visionImageUrl "IMG")] 1440 2560)) ∧
    (CreatorV2.step
        { CreatorV2.initState with
            headshotPrompt := "p", fullBodyPrompt := "q", anchorHeadshot := some "H" }
        (CreatorV2.PAction.clickGenerateBody (some "B"))
      = { CreatorV2.initState with
            headshotPrompt := "p", fullBodyPrompt := "q", anchorHeadshot := some "H",
            anchorBody := some "B" }) :=
  ⟨claim_C6.2.2.1 "IMG" "FB" "HP" (by decide),
   claim_C6.2.2.2
     { CreatorV2.initState with
         headshotPrompt := "p", fullBodyPrompt := "q", anchorHeadshot := some "H" }
     "B" (by decide) (by decide)⟩

/-- Claim C7: the native aspect ratio mapping sends each enum value to its
    documented wire string, never an absent value, and the two approximated
    ratios additionally append their textual composition hint to the final
    prompt. -/
theorem claim_C7 :
    GeminiService.mapAspect (aspectValue Aspect.square) = some "1:1" ∧
    GeminiService.mapAspect (aspectValue Aspect.wide169) = some "16:9" ∧
    GeminiService.mapAspect (aspectValue Aspect.tall916) = some "9:16" ∧
    GeminiService.mapAspect (aspectValue Aspect.portrait45) = some "3:4" ∧
    GeminiService.mapAspect (aspectValue Aspect.landscape32) = some "4:3" ∧
    (∀ a : Aspect, (GeminiService.mapAspect (aspectValue a)).isSome = true) ∧
    (∀ a : Aspect, ∃ t, GeminiService.mapAspect (aspectValue a) = some t ∧
      t ∈ (["1:1", "16:9", "9:16", "3:4", "4:3"] : List String)) ∧
    (∀ cfg : GenerationConfig,
      GeminiService.geminiFinalPrompt { cfg with aspect := aspectValue Aspect.portrait45 }
        = GeminiService.promptLead cfg ++ cfg.prompt ++ GeminiService.styleClause cfg
            ++ " (Aspect Ratio 4:5 composition)") ∧
    (∀ cfg : GenerationConfig,
      GeminiService.geminiFinalPrompt { cfg with aspect := aspectValue Aspect.landscape32 }
        = GeminiService.promptLead cfg ++ cfg.prompt ++ GeminiService.styleClause cfg
            ++ " (Aspect Ratio 3:2 composition)") := by
  refine ⟨rfl, rfl, rfl, rfl, rfl, ?_, ?_, ?_, ?_⟩
  · intro a; cases a <;> rfl
  · intro a; cases a <;> exact ⟨_, rfl, by decide⟩
  · intro cfg; rfl
  · intro cfg; rfl

/-- Claim C8, counterexample: the full sanitizer can output a string that
    does contain a credential-shaped substring: on the concrete message
    AIzaSy plus twenty-six letters a plus a lowercase apikey assignment,
    the fourth rule rewrites the assignment to the canonical api_key form,
    whose seven key characters complete the credential shape in the
    output. -/
theorem claim_C8_counterexample :
    ErrorHandler.noCred (ErrorHandler.sanitizeMessage badSanitizeInput) = false ∧
    ErrorHandler.sanitizeMessage badSanitizeInput
      = ("AIzaSy" ++ String.mk (List.replicate 26 'a') ++ "api_key=[REDACTED]").data := by
  exact ⟨by decide, by decide⟩

/-- Claim C8 as amended: the dedicated Gemini-credential rule does remove
    every credential-shaped substring, so its own output never contains
    one; the later api-key redaction rule, however, can synthesize a fresh
    credential-shaped substring in the final sanitizer output. -/
theorem claim_C8 :
    ∀ l : List Char, ErrorHandler.noCred (ErrorHandler.redactGeminiKey l) = true :=
  ErrorHandler.redactGeminiKey_noCred

/-- Claim C9: on the aggregator vendor-proxy path any aspect string outside
    the allowed five is silently coerced to 1:1 in the wire payload, in
    particular the enum values 4:5 and 3:2, while the request parts carry
    no aspect hint at all: they are identical whatever aspect is
    requested. -/
theorem claim_C9 :
    CometService.cometProxyCoerce (aspectValue Aspect.portrait45) = "1:1" ∧
    CometService.cometProxyCoerce (aspectValue Aspect.landscape32) = "1:1" ∧
    (∀ a : String, CometService.allowedAspects.contains a = false →
      CometService.cometProxyCoerce a = "1:1") ∧
    (∀ (cfg : GenerationConfig) (a : String),
      proxyAspectSel (CometService.cometBuildRequest { cfg with aspect := a, model := none })
        = some (CometService.cometProxyCoerce a)) ∧
    (∀ (cfg : GenerationConfig) (a1 a2 : String),
      proxyPartsSel (CometService.cometBuildRequest { cfg with aspect := a1, model := none })
        = proxyPartsSel (CometService.cometBuildRequest { cfg with aspect := a2, model := none })) := by
  refine ⟨by decide, by decide, ?_, fun cfg a => rfl, fun cfg a1 a2 => rfl⟩
  intro a hmem
  by_cases he : a.isEmpty = true
  · simp [CometService.cometProxyCoerce, he]
  · unfold CometService.cometProxyCoerce
    rw [if_neg he]
    show (if CometService.allowedAspects.contains a = true then a else "1:1") = "1:1"
    rw [hmem]
    simp

/-- Claim C9, witness: the coercion conjunct applied to the out-of-set
    string 4:5. -/
theorem claim_C9_witness : CometService.cometProxyCoerce "4:5" = "1:1" :=
  claim_C9.2.2.1 "4:5" (by decide)

/-- Claim C10: an edit-mode save with truthy stored fields keeps the
    original id and creation time and takes name, anchors and blueprint
    from the edited state; a fresh save mints both id and creation time
    from the current clock value. -/
theorem claim_C10 :
    (∀ (d : CreatorV2.InitData) (s : CreatorV2.PipelineState) (now : Nat) (dna : CharacterDNA),
      d.id.isEmpty = false → d.createdAt ≠ 0 →
      CreatorV2.handleSave (some d) s now = some dna →
      dna.id = d.id ∧ dna.createdAt = d.createdAt ∧ dna.name = s.characterName ∧
        s.anchorHeadshot = some dna.anchorHeadshot ∧ s.anchorBody = some dna.anchorBody ∧
        s.blueprint = some dna.blueprint) ∧
    (∀ (s : CreatorV2.PipelineState) (now : Nat) (dna : CharacterDNA),
      CreatorV2.handleSave none s now = some dna →
      dna.id = now.repr ∧ dna.createdAt = now) := by
  constructor
  · intro d s now dna hid hca h
    unfold CreatorV2.handleSave at h
    split at h
    · rename_i bp ah ab hbp hah hab
      split at h
      · exact absurd h (by simp)
      · have hdna := (Option.some.injEq ..).mp h
        subst hdna
        refine ⟨by simp [hid], by simp [hca], rfl, ?_, ?_, ?_⟩
        · rw [hah]
        · rw [hab]
        · rw [hbp]
    · exact absurd h (by simp)
  · intro s now dna h
    unfold CreatorV2.handleSave at h
    split at h
    · split at h
      · exact absurd h (by simp)
      · have hdna := (Option.some.injEq ..).mp h
        subst hdna
        exact ⟨rfl, rfl⟩
    · exact absurd h (by simp)

/-- Claim C10, witness: the two conjuncts applied to a concrete edit-mode
    save with stored id 42 and creation time 5 at clock value 9, and to a
    concrete fresh save at clock value 7. -/
theorem claim_C10_witness :
    (sampleSavedDNA.id = "42" ∧ sampleSavedDNA.createdAt = 5 ∧
      sampleSavedDNA.name = sampleEditState.characterName ∧
      sampleEditState.anchorHeadshot = some sampleSavedDNA.anchorHeadshot ∧
      sampleEditState.anchorBody = some sampleSavedDNA.anchorBody ∧
      sampleEditState.blueprint = some sampleSavedDNA.blueprint) ∧
    (sampleFreshDNA.id = Nat.repr 7 ∧ sampleFreshDNA.createdAt = 7) :=
  ⟨claim_C10.1 { id := "42", createdAt := 5 } sampleEditState 9 sampleSavedDNA
      (by decide) (by decide) (by decide),
   claim_C10.2 sampleEditState 7 sampleFreshDNA (by decide)⟩

end ImageStudioSpec
